import Mathlib

/-!
Shallow embedding of the two training loops of the `autoencoder` repository
(`src/training/train_autoencoder.py` and `src/training/train_classifier.py`).

The embedding translates the control flow of the two Python trainers into
executable Lean functions that return an event trace together with the final
model parameters.  Everything the trainers delegate to the deep-learning
framework (model forward passes, the Adam update, the cross-entropy loss) is
kept abstract as a function-valued field of a "world" structure; everything the
repository's own code decides (order of construction, loop structure, the
conditionals on `save_path`/`wandb_login`/`to_evaluate`, the loss wiring, the
per-epoch mean, the argparse `main`s) is translated line by line.  Fallible
Python operations (division by zero, reading an unassigned variable,
subscripting an argparse `Namespace`) are modelled in the `Except` monad.
-/

/-- Errors a Python run of the trainers can raise. -/
inductive PyError where
  | nameError (name : String)
  | zeroDivisionError
  | typeError (msg : String)
deriving DecidableEq, Repr

/-- Observable events emitted while a trainer runs, in program order.
Loop events carry the epoch index (and batch index) at which they occur. -/
inductive Event where
  | manualSeed (seed : Int)
  | constructDataset (split : String)
  | constructLoader (batchSize : Nat)
  | constructModel (name : String)
  | toDevice (name : String)
  | constructOptimizer (params : String) (lr : ℚ)
  | constructCriterion (name : String)
  | wandbInit (project entity : String)
  | zeroGrad (epoch bIdx : Nat)
  | backward (epoch bIdx : Nat) (loss : ℚ)
  | optStep (epoch bIdx : Nat)
  | printVal (v : ℚ)
  | save (name : String) (epoch : Nat)
  | wandbLog (epoch : Nat) (key : String) (v : ℚ)
  | evaluate (name : String)
deriving DecidableEq, Repr

/-- Python truthiness of an `Optional[str]`: `None` and the empty string are
falsy, every other string is truthy.  This is the test performed by
`if save_path:` and `if wandb_login:` in both trainers. -/
def pyTruthy : Option String → Bool
  | none => false
  | some s => !s.isEmpty

/-- Python division `x / n` (with `n` an `int` length): raises
`ZeroDivisionError` when `n = 0`. -/
def pyDiv (x : ℚ) (n : Nat) : Except PyError ℚ :=
  if n = 0 then .error .zeroDivisionError else .ok (x / (n : ℚ))

/-- A batch of images, flattened to its list of tensor elements. -/
abbrev Batch := List ℚ

/-- Semantics of `torch.nn.MSELoss(reduction='mean')` on flattened tensors:
the sum of squared element differences divided by the number of elements. -/
def mSELossMean (pred target : List ℚ) : ℚ :=
  (List.zipWith (fun a b => (a - b) ^ 2) pred target).sum / (pred.length : ℚ)

/-- Spec-side definition, following the words of the spec only: the mean
squared reconstruction error between a reconstruction and the input it should
reconstruct. -/
def meanSquaredReconstructionError (reconstruction input : List ℚ) : ℚ :=
  (List.zipWith (fun a b => (a - b) ^ 2) reconstruction input).sum
    / (input.length : ℚ)

/-! ### Autoencoder trainer (`src/training/train_autoencoder.py`) -/

/-- Arguments of `train_autoencoder` (its Python keyword parameters). -/
structure AEArgs where
  epochs : Nat
  lr : ℚ
  trainBatchSize : Nat
  testBatchSize : Nat
  toEvaluate : Bool
  wandbLogin : Option String
  savePath : Option String
  seed : Int
deriving DecidableEq, Repr

/-- The framework-provided environment of `train_autoencoder`: the batches the
train `DataLoader` yields on each full pass, the autoencoder's initial
parameters `initParams : P`, its forward pass, and the state-carrying Adam
update built over `autoencoder.parameters()` (opaque optimizer state `O`). -/
structure AEWorld (P O : Type) where
  trainBatches : List Batch
  initParams : P
  forward : P → Batch → Batch
  initOpt : O
  adamStep : O → P → Batch → O × P

/-- One iteration of the batch loop of `train_autoencoder` (lines 48-57):
`zero_grad`, forward pass, MSE loss against the same images, backward,
optimizer step, `print(loss.item())`. -/
def aeBatchStep {P O : Type} (w : AEWorld P O) (epoch bIdx : Nat)
    (st : O × P) (b : Batch) : (O × P) × ℚ × List Event :=
  let loss := mSELossMean (w.forward st.2 b) b
  (w.adamStep st.1 st.2 b, loss,
    [Event.zeroGrad epoch bIdx, Event.backward epoch bIdx loss,
     Event.optStep epoch bIdx, Event.printVal loss])

/-- The batch loop of one autoencoder epoch: processes the loader's batches in
order, threading the optimizer/parameter state and the Python variable `loss`
(`none` while still unassigned). -/
def aeBatchLoop {P O : Type} (w : AEWorld P O) (epoch : Nat) :
    Nat → O × P → Option ℚ → List Batch → (O × P) × Option ℚ × List Event
  | _, st, lastLoss, [] => (st, lastLoss, [])
  | bIdx, st, _, b :: bs =>
    let r := aeBatchStep w epoch bIdx st b
    let rest := aeBatchLoop w epoch (bIdx + 1) r.1 (some r.2.1) bs
    (rest.1, rest.2.1, r.2.2 ++ rest.2.2)

/-- The epoch loop of `train_autoencoder` (lines 47-65): per epoch, the batch
loop, then `if save_path: autoencoder.save(...)`, then
`if wandb_login: wandb.log({'autoencoder_loss': loss.item()})` — the latter
raising `NameError` when `loss` was never assigned. -/
def aeEpochLoop {P O : Type} (a : AEArgs) (w : AEWorld P O) :
    Nat → Nat → O × P → Option ℚ →
      Except PyError ((O × P) × Option ℚ × List Event)
  | _, 0, st, lastLoss => .ok (st, lastLoss, [])
  | epoch, rem + 1, st, lastLoss =>
    let r := aeBatchLoop w epoch 0 st lastLoss w.trainBatches
    let saveEvs := if pyTruthy a.savePath
      then [Event.save "autoencoder" epoch] else []
    let logRes : Except PyError (List Event) :=
      if pyTruthy a.wandbLogin then
        match r.2.1 with
        | none => .error (.nameError "loss")
        | some v => .ok [Event.wandbLog epoch "autoencoder_loss" v]
      else .ok []
    match logRes with
    | .error e => .error e
    | .ok logEvs =>
      match aeEpochLoop a w (epoch + 1) rem r.1 r.2.1 with
      | .error e => .error e
      | .ok (stF, lastF, rest) =>
        .ok (stF, lastF, r.2.2 ++ saveEvs ++ logEvs ++ rest)

/-- Shallow embedding of `train_autoencoder` (lines 16-74): seed, datasets,
loader, model, optimizer, criterion, optional `wandb.init`, the epoch loop,
and the final `if to_evaluate: evaluate_autoencoder(...)`.  Returns the event
trace and the autoencoder's final parameters. -/
def train_autoencoder {P O : Type} (a : AEArgs) (w : AEWorld P O) :
    Except PyError (List Event × P) :=
  let setup : List Event :=
    [Event.manualSeed a.seed,
     Event.constructDataset "train", Event.constructDataset "test",
     Event.constructLoader a.trainBatchSize,
     Event.constructModel "AutoEncoder", Event.toDevice "autoencoder",
     Event.constructOptimizer "autoencoder.parameters" a.lr,
     Event.constructCriterion "MSELoss"]
    ++ (if pyTruthy a.wandbLogin
        then [Event.wandbInit "autoencoder" (a.wandbLogin.getD "")] else [])
  match aeEpochLoop a w 0 a.epochs (w.initOpt, w.initParams) none with
  | .error e => .error e
  | .ok (st, _, evs) =>
    let evalEvs := if a.toEvaluate then [Event.evaluate "autoencoder"] else []
    .ok (setup ++ evs ++ evalEvs, st.2)

/-! ### Classifier trainer (`src/training/train_classifier.py`) -/

/-- A batch yielded by the classifier's train loader: images and labels. -/
structure ClsBatch where
  img : List ℚ
  label : List ℚ
deriving DecidableEq, Repr

/-- Arguments of `train_classifier` (its Python keyword parameters after the
`encoder` module, which lives in the world below). -/
structure ClsArgs where
  channels : Nat
  epochs : Nat
  lr : ℚ
  trainBatchSize : Nat
  testBatchSize : Nat
  toEvaluate : Bool
  wandbLogin : Option String
  savePath : Option String
  seed : Int
deriving DecidableEq, Repr

/-- The framework-provided environment of `train_classifier`: the loader's
batches, the initial encoder parameters `E` and classifier parameters `C`,
both forward passes, the cross-entropy criterion, and the state-carrying Adam
update.  The optimizer is constructed over `classifier.parameters()` only
(line 49), so its update consumes the whole differentiation context
`(O, C, E, batch)` but writes back only new classifier parameters. -/
structure ClsWorld (E C O : Type) where
  trainBatches : List ClsBatch
  encoderInit : E
  classifierInit : C
  encFwd : E → List ℚ → List ℚ
  clsFwd : C → List ℚ → List ℚ
  ceLoss : List ℚ → List ℚ → ℚ
  initOpt : O
  adamStep : O → C → E → ClsBatch → O × C

/-- The batch loop of one classifier epoch (lines 55-64): `zero_grad`,
`encoder(img)`, `classifier(hidden)`, cross-entropy loss, backward, optimizer
step over the classifier's parameters, `epoch_loss += loss.item()`.  The
mutable state is `(optimizer state, encoder params, classifier params)`; the
step writes only the optimizer and classifier components. -/
def clsBatchLoop {E C O : Type} (w : ClsWorld E C O) (epoch : Nat) :
    Nat → O × E × C → ℚ → List ClsBatch → (O × E × C) × ℚ × List Event
  | _, st, acc, [] => (st, acc, [])
  | bIdx, (o, e, c), acc, b :: bs =>
    let loss := w.ceLoss (w.clsFwd c (w.encFwd e b.img)) b.label
    let oc := w.adamStep o c e b
    let evs := [Event.zeroGrad epoch bIdx, Event.backward epoch bIdx loss,
                Event.optStep epoch bIdx]
    let rest := clsBatchLoop w epoch (bIdx + 1) (oc.1, e, oc.2) (acc + loss) bs
    (rest.1, rest.2.1, evs ++ rest.2.2)

/-- The epoch loop of `train_classifier` (lines 53-73): per epoch, the batch
loop with `epoch_loss = 0`, then `epoch_loss /= len(train_loader)` (an
unguarded division), `print(epoch_loss)`, `if wandb_login: wandb.log(...)`,
and `if save_path: classifier.save(save_path)`. -/
def clsEpochLoop {E C O : Type} (a : ClsArgs) (w : ClsWorld E C O) :
    Nat → Nat → O × E × C → Except PyError ((O × E × C) × List Event)
  | _, 0, st => .ok (st, [])
  | epoch, rem + 1, st =>
    let r := clsBatchLoop w epoch 0 st 0 w.trainBatches
    match pyDiv r.2.1 w.trainBatches.length with
    | .error e => .error e
    | .ok epochLoss =>
      let logEvs := if pyTruthy a.wandbLogin
        then [Event.wandbLog epoch "classifier_loss" epochLoss] else []
      let saveEvs := if pyTruthy a.savePath
        then [Event.save "classifier" epoch] else []
      match clsEpochLoop a w (epoch + 1) rem r.1 with
      | .error e => .error e
      | .ok (stF, rest) =>
        .ok (stF, r.2.2 ++ [Event.printVal epochLoss] ++ logEvs ++ saveEvs
              ++ rest)

/-- Shallow embedding of `train_classifier` (lines 17-81): seed, classifier
model construction, device moves, train dataset and loader, optional
`wandb.init`, optimizer over the classifier's parameters, criterion, the epoch
loop, and the final `if to_evaluate: evaluate_classifier(...)`.  Returns the
event trace, the final encoder parameters and the final classifier
parameters. -/
def train_classifier {E C O : Type} (a : ClsArgs) (w : ClsWorld E C O) :
    Except PyError (List Event × E × C) :=
  let setup : List Event :=
    [Event.manualSeed a.seed,
     Event.constructModel "Classifier", Event.toDevice "classifier",
     Event.toDevice "encoder",
     Event.constructDataset "train", Event.constructLoader a.trainBatchSize]
    ++ (if pyTruthy a.wandbLogin
        then [Event.wandbInit "autoencoder" (a.wandbLogin.getD "")] else [])
    ++ [Event.constructOptimizer "classifier.parameters" a.lr,
        Event.constructCriterion "CrossEntropyLoss"]
  match clsEpochLoop a w 0 a.epochs (w.initOpt, w.encoderInit,
      w.classifierInit) with
  | .error e => .error e
  | .ok (st, evs) =>
    let evalEvs := if a.toEvaluate then [Event.evaluate "classifier"] else []
    .ok (setup ++ evs ++ evalEvs, st.2.1, st.2.2)

/-! ### The second copy of `train_classifier.py` -/

/-- Modelled from the spec: the spec records that `train_classifier.py`
"appears twice in the source with minor variations, likely an accidental
duplicate/leftover draft"; the second copy is not present under `src/`.  This
is the batch loop of that second copy, written as a left fold over the
enumerated batches instead of structural recursion — a minor syntactic
variation with the same training behaviour. -/
def clsCopyStep {E C O : Type} (w : ClsWorld E C O) (epoch : Nat)
    (r : ((O × E × C) × ℚ × Nat) × List Event) (b : ClsBatch) :
    ((O × E × C) × ℚ × Nat) × List Event :=
  let o := r.1.1.1
  let e := r.1.1.2.1
  let c := r.1.1.2.2
  let i := r.1.2.2
  let loss := w.ceLoss (w.clsFwd c (w.encFwd e b.img)) b.label
  let oc := w.adamStep o c e b
  (((oc.1, e, oc.2), r.1.2.1 + loss, i + 1),
    r.2 ++ [Event.zeroGrad epoch i, Event.backward epoch i loss,
      Event.optStep epoch i])

/-- Modelled from the spec: the batch loop of the second copy, as the left
fold of `clsCopyStep`. -/
def clsBatchLoopCopy {E C O : Type} (w : ClsWorld E C O) (epoch : Nat)
    (bIdx : Nat) (st : O × E × C) (acc : ℚ) (bs : List ClsBatch) :
    (O × E × C) × ℚ × List Event :=
  bs.foldl (clsCopyStep w epoch) ((st, acc, bIdx), [])
    |> fun r => (r.1.1, r.1.2.1, r.2)

/-- Modelled from the spec: the epoch loop of the second copy of
`train_classifier.py`, delegating each epoch's batch pass to
`clsBatchLoopCopy`. -/
def clsEpochLoopCopy {E C O : Type} (a : ClsArgs) (w : ClsWorld E C O) :
    Nat → Nat → O × E × C → Except PyError ((O × E × C) × List Event)
  | _, 0, st => .ok (st, [])
  | epoch, rem + 1, st =>
    let r := clsBatchLoopCopy w epoch 0 st 0 w.trainBatches
    match pyDiv r.2.1 w.trainBatches.length with
    | .error e => .error e
    | .ok epochLoss =>
      let logEvs := if pyTruthy a.wandbLogin
        then [Event.wandbLog epoch "classifier_loss" epochLoss] else []
      let saveEvs := if pyTruthy a.savePath
        then [Event.save "classifier" epoch] else []
      match clsEpochLoopCopy a w (epoch + 1) rem r.1 with
      | .error e => .error e
      | .ok (stF, rest) =>
        .ok (stF, r.2.2 ++ [Event.printVal epochLoss] ++ logEvs ++ saveEvs
              ++ rest)

/-- Modelled from the spec: the second, near-identical copy of
`train_classifier` described by the spec as an accidental duplicate. -/
def train_classifier_copy {E C O : Type} (a : ClsArgs) (w : ClsWorld E C O) :
    Except PyError (List Event × E × C) :=
  let setup : List Event :=
    [Event.manualSeed a.seed,
     Event.constructModel "Classifier", Event.toDevice "classifier",
     Event.toDevice "encoder",
     Event.constructDataset "train", Event.constructLoader a.trainBatchSize]
    ++ (if pyTruthy a.wandbLogin
        then [Event.wandbInit "autoencoder" (a.wandbLogin.getD "")] else [])
    ++ [Event.constructOptimizer "classifier.parameters" a.lr,
        Event.constructCriterion "CrossEntropyLoss"]
  match clsEpochLoopCopy a w 0 a.epochs (w.initOpt, w.encoderInit,
      w.classifierInit) with
  | .error e => .error e
  | .ok (st, evs) =>
    let evalEvs := if a.toEvaluate then [Event.evaluate "classifier"] else []
    .ok (setup ++ evs ++ evalEvs, st.2.1, st.2.2)

/-! ### The `main` entry points -/

/-- An argparse `Namespace` as returned by `parser.parse_args()`: a record of
attribute names to parsed string values. -/
structure PyNamespace where
  attrs : List (String × String)
deriving DecidableEq, Repr

/-- Python subscription `args[key]` on an argparse `Namespace`: the class
defines no `__getitem__`, so every subscription raises
`TypeError: 'Namespace' object is not subscriptable`, whatever the key. -/
def namespaceGetItem (_ns : PyNamespace) (_key : String) :
    Except PyError String :=
  .error (.typeError "Namespace object is not subscriptable")

/-- Modelled from the spec: the argument names registered by
`add_training_arguments` (`src/training/add_training_arguments.py`, absent
from `src/`) — the trivial configuration values the spec lists (epoch count,
learning rate, batch sizes, seed, paths, plus the evaluation and wandb
switches read by both `main`s). -/
def trainingArgumentNames : List String :=
  ["epochs", "lr", "train_batch_size", "test_batch_size", "to_evaluate",
   "wandb_login", "save_path", "seed"]

/-- The argument names the classifier `main`'s parser defines: the shared
training arguments plus the positional `autoencoder_model_path` added on
line 87. -/
def clsParserArgumentNames : List String :=
  trainingArgumentNames ++ ["autoencoder_model_path"]

/-- Shallow embedding of `main()` of `train_autoencoder.py` (lines 77-90),
starting from the parsed `Namespace`: it subscripts the namespace for each
argument and then calls the trainer, `conv` standing for the bundling of the
eight read values into the trainer's arguments. -/
def main_autoencoder {P O : Type} (w : AEWorld P O) (ns : PyNamespace)
    (conv : List String → AEArgs) : Except PyError (List Event × P) :=
  match namespaceGetItem ns "epochs" with
  | .error e => .error e
  | .ok v0 =>
  match namespaceGetItem ns "lr" with
  | .error e => .error e
  | .ok v1 =>
  match namespaceGetItem ns "train_batch_size" with
  | .error e => .error e
  | .ok v2 =>
  match namespaceGetItem ns "test_batch_size" with
  | .error e => .error e
  | .ok v3 =>
  match namespaceGetItem ns "to_evaluate" with
  | .error e => .error e
  | .ok v4 =>
  match namespaceGetItem ns "wandb_login" with
  | .error e => .error e
  | .ok v5 =>
  match namespaceGetItem ns "save_path" with
  | .error e => .error e
  | .ok v6 =>
  match namespaceGetItem ns "seed" with
  | .error e => .error e
  | .ok v7 =>
    train_autoencoder (conv [v0, v1, v2, v3, v4, v5, v6, v7]) w

/-- Shallow embedding of `main()` of `train_classifier.py` (lines 84-101),
starting from the parsed `Namespace`: it first subscripts the namespace with
the key `"path"` to load the autoencoder, then reads the remaining arguments
and calls the trainer.  `loadEncoder` stands for
`AutoEncoder().load_model(...).get_encoder()` and `conv` for the bundling of
the read values into the trainer's arguments. -/
def main_classifier {E C O : Type} (w : ClsWorld E C O) (ns : PyNamespace)
    (loadEncoder : String → E) (conv : List String → ClsArgs) :
    Except PyError (List Event × E × C) :=
  match namespaceGetItem ns "path" with
  | .error e => .error e
  | .ok p =>
  match namespaceGetItem ns "epochs" with
  | .error e => .error e
  | .ok v0 =>
  match namespaceGetItem ns "lr" with
  | .error e => .error e
  | .ok v1 =>
  match namespaceGetItem ns "train_batch_size" with
  | .error e => .error e
  | .ok v2 =>
  match namespaceGetItem ns "test_batch_size" with
  | .error e => .error e
  | .ok v3 =>
  match namespaceGetItem ns "to_evaluate" with
  | .error e => .error e
  | .ok v4 =>
  match namespaceGetItem ns "wandb_login" with
  | .error e => .error e
  | .ok v5 =>
  match namespaceGetItem ns "save_path" with
  | .error e => .error e
  | .ok v6 =>
  match namespaceGetItem ns "seed" with
  | .error e => .error e
  | .ok v7 =>
    train_classifier (conv [v0, v1, v2, v3, v4, v5, v6, v7])
      { w with encoderInit := loadEncoder p }

/-! ### Observations over traces -/

/-- Tags abstract a trace to its milestone events: construction steps,
optimizer steps, saves, metric logs and the evaluation call, dropping seeds,
device moves, per-batch prints, `zero_grad` and `backward`. -/
inductive Tag where
  | dataset (split : String)
  | loader
  | model (name : String)
  | optimizer (params : String)
  | criterion (name : String)
  | winit
  | step (epoch bIdx : Nat)
  | save (epoch : Nat)
  | wlog (epoch : Nat) (key : String)
  | evalCall (name : String)
deriving DecidableEq, Repr

/-- The tag of an event, `none` for events the skeleton drops. -/
def tagOf : Event → Option Tag
  | .constructDataset s => some (.dataset s)
  | .constructLoader _ => some .loader
  | .constructModel n => some (.model n)
  | .constructOptimizer p _ => some (.optimizer p)
  | .constructCriterion n => some (.criterion n)
  | .wandbInit _ _ => some .winit
  | .optStep e b => some (.step e b)
  | .save _ e => some (.save e)
  | .wandbLog e k _ => some (.wlog e k)
  | .evaluate n => some (.evalCall n)
  | _ => none

/-- The milestone skeleton of a trace. -/
def skeleton (tr : List Event) : List Tag :=
  tr.filterMap tagOf

/-- Batch indices of the optimizer steps taken during epoch `e`, in trace
order. -/
def stepsOfEpoch (tr : List Event) (e : Nat) : List Nat :=
  tr.filterMap fun ev =>
    match ev with
    | .optStep e' b => if e' = e then some b else none
    | _ => none

/-- Epoch indices at which a model save happened, in trace order. -/
def saveEpochs (tr : List Event) : List Nat :=
  tr.filterMap fun ev =>
    match ev with
    | .save _ e => some e
    | _ => none

/-- Epoch index and metric key of every experiment-tracking log call. -/
def logCalls (tr : List Event) : List (Nat × String) :=
  tr.filterMap fun ev =>
    match ev with
    | .wandbLog e k _ => some (e, k)
    | _ => none

/-- Values of the logged loss metrics, in trace order. -/
def logValues (tr : List Event) : List ℚ :=
  tr.filterMap fun ev =>
    match ev with
    | .wandbLog _ _ v => some v
    | _ => none

/-- Values printed by the trainer, in trace order. -/
def printedValues (tr : List Event) : List ℚ :=
  tr.filterMap fun ev =>
    match ev with
    | .printVal v => some v
    | _ => none

/-- Loss values passed to `backward`, in trace order. -/
def backwardLosses (tr : List Event) : List ℚ :=
  tr.filterMap fun ev =>
    match ev with
    | .backward _ _ v => some v
    | _ => none

/-- Names passed to the post-training evaluation call, in trace order. -/
def evalCallNames (tr : List Event) : List String :=
  tr.filterMap fun ev =>
    match ev with
    | .evaluate n => some n
    | _ => none

/-- Number of `wandb.init` calls in a trace. -/
def wandbInitCount (tr : List Event) : Nat :=
  (tr.filter fun ev =>
    match ev with
    | .wandbInit _ _ => true
    | _ => false).length

/-- Whether an event is the evaluation call. -/
def isEvalEvent : Event → Bool
  | .evaluate _ => true
  | _ => false

/-! ### Expected milestone shapes (spec-facing statements) -/

/-- Milestones of one autoencoder epoch over an `n`-batch loader: the
optimizer steps of the batch loop, then the conditional save, then the
conditional loss log. -/
def aeEpochTags (a : AEArgs) (n e : Nat) : List Tag :=
  (List.range n).map (Tag.step e)
    ++ (if pyTruthy a.savePath then [Tag.save e] else [])
    ++ (if pyTruthy a.wandbLogin then [Tag.wlog e "autoencoder_loss"] else [])

/-- The full milestone skeleton of an autoencoder training run: datasets,
loader, model, optimizer, criterion, conditional `wandb.init`, the epochs in
order, then the conditional evaluation. -/
def aeExpectedSkeleton (a : AEArgs) (n : Nat) : List Tag :=
  [Tag.dataset "train", Tag.dataset "test", Tag.loader,
   Tag.model "AutoEncoder", Tag.optimizer "autoencoder.parameters",
   Tag.criterion "MSELoss"]
    ++ (if pyTruthy a.wandbLogin then [Tag.winit] else [])
    ++ (List.range a.epochs).flatMap (aeEpochTags a n)
    ++ (if a.toEvaluate then [Tag.evalCall "autoencoder"] else [])

/-- Milestones of one classifier epoch over an `n`-batch loader: the optimizer
steps, then the conditional loss log, then the conditional save. -/
def clsEpochTags (a : ClsArgs) (n e : Nat) : List Tag :=
  (List.range n).map (Tag.step e)
    ++ (if pyTruthy a.wandbLogin then [Tag.wlog e "classifier_loss"] else [])
    ++ (if pyTruthy a.savePath then [Tag.save e] else [])

/-- The full milestone skeleton of a classifier training run: the classifier
model is constructed first, then dataset and loader, conditional `wandb.init`,
optimizer, criterion, the epochs in order, then the conditional evaluation. -/
def clsExpectedSkeleton (a : ClsArgs) (n : Nat) : List Tag :=
  [Tag.model "Classifier", Tag.dataset "train", Tag.loader]
    ++ (if pyTruthy a.wandbLogin then [Tag.winit] else [])
    ++ [Tag.optimizer "classifier.parameters", Tag.criterion "CrossEntropyLoss"]
    ++ (List.range a.epochs).flatMap (clsEpochTags a n)
    ++ (if a.toEvaluate then [Tag.evalCall "classifier"] else [])

/-! ### Parameter evolution and spec-side loss streams -/

/-- Net effect of one autoencoder batch on the optimizer/parameter state. -/
def aeRunBatch {P O : Type} (w : AEWorld P O) (st : O × P) (b : Batch) :
    O × P :=
  w.adamStep st.1 st.2 b

/-- Net effect of one full pass over a batch list on the autoencoder state. -/
def aeRunBatches {P O : Type} (w : AEWorld P O) (st : O × P)
    (bs : List Batch) : O × P :=
  bs.foldl (aeRunBatch w) st

/-- Spec-side per-batch losses of one autoencoder pass: for each batch, the
mean squared reconstruction error between the current model's reconstruction
of the batch and the batch itself, with the parameters evolving batch by
batch. -/
def aeBatchSpecLosses {P O : Type} (w : AEWorld P O) :
    O × P → List Batch → List ℚ
  | _, [] => []
  | st, b :: bs =>
    meanSquaredReconstructionError (w.forward st.2 b) b
      :: aeBatchSpecLosses w (aeRunBatch w st b) bs

/-- Spec-side stream of all per-batch losses over a whole training run of the
given number of epochs. -/
def aeSpecLossStream {P O : Type} (w : AEWorld P O) : Nat → O × P → List ℚ
  | 0, _ => []
  | k + 1, st =>
    aeBatchSpecLosses w st w.trainBatches
      ++ aeSpecLossStream w k (aeRunBatches w st w.trainBatches)

/-- Spec-side trace of one autoencoder batch-loop pass: for every batch, a
`zero_grad`, a `backward` of the mean squared reconstruction error of that
batch under the current parameters, the optimizer step, and the print of that
same loss. -/
def aeSpecBatchTrace {P O : Type} (w : AEWorld P O) (epoch : Nat) :
    Nat → O × P → List Batch → List Event
  | _, _, [] => []
  | i, st, b :: bs =>
    let loss := meanSquaredReconstructionError (w.forward st.2 b) b
    [Event.zeroGrad epoch i, Event.backward epoch i loss, Event.optStep epoch i,
     Event.printVal loss] ++ aeSpecBatchTrace w epoch (i + 1) (aeRunBatch w st b) bs

/-- Cross-entropy loss of one classifier batch under the current state. -/
def clsBatchLossValue {E C O : Type} (w : ClsWorld E C O) (st : O × E × C)
    (b : ClsBatch) : ℚ :=
  w.ceLoss (w.clsFwd st.2.2 (w.encFwd st.2.1 b.img)) b.label

/-- Net effect of one classifier batch on the state: the Adam update over the
classifier's parameters; the encoder component is untouched. -/
def clsRunBatch {E C O : Type} (w : ClsWorld E C O) (st : O × E × C)
    (b : ClsBatch) : O × E × C :=
  let oc := w.adamStep st.1 st.2.2 st.2.1 b
  (oc.1, st.2.1, oc.2)

/-- Net effect of one full pass over a batch list on the classifier state. -/
def clsRunBatches {E C O : Type} (w : ClsWorld E C O) (st : O × E × C)
    (bs : List ClsBatch) : O × E × C :=
  bs.foldl (clsRunBatch w) st

/-- Spec-side per-batch losses of one classifier pass, with the state evolving
batch by batch. -/
def clsBatchSpecLosses {E C O : Type} (w : ClsWorld E C O) :
    O × E × C → List ClsBatch → List ℚ
  | _, [] => []
  | st, b :: bs =>
    clsBatchLossValue w st b :: clsBatchSpecLosses w (clsRunBatch w st b) bs

/-- Spec-side per-epoch mean losses of a classifier run: for each epoch, the
sum of that epoch's per-batch losses divided by the number of batches. -/
def clsEpochMeans {E C O : Type} (w : ClsWorld E C O) :
    Nat → O × E × C → List ℚ
  | 0, _ => []
  | k + 1, st =>
    ((clsBatchSpecLosses w st w.trainBatches).sum
        / (w.trainBatches.length : ℚ))
      :: clsEpochMeans w k (clsRunBatches w st w.trainBatches)

/-! ### General list helpers -/

theorem flatMap_sublist_flatMap {α β : Type} (l : List α) (f g : α → List β)
    (h : ∀ a ∈ l, (f a).Sublist (g a)) :
    (l.flatMap f).Sublist (l.flatMap g) := by
  induction l with
  | nil => simp
  | cons x xs ih =>
    simp only [List.flatMap_cons]
    exact (h x (by simp)).append (ih fun a ha => h a (by simp [ha]))

theorem range'_flatMap_select {β : Type} (E : Nat) (L : Nat → List β) :
    ∀ len s, ((List.range' s len).flatMap fun e => if e = E then L e else [])
      = if s ≤ E ∧ E < s + len then L E else [] := by
  intro len
  induction len with
  | zero => intro s; simp
  | succ n ih =>
    intro s
    rw [List.range'_succ, List.flatMap_cons, ih (s + 1)]
    by_cases hsE : s = E
    · subst hsE
      rw [if_pos rfl, if_neg (by omega), if_pos (by omega)]
      simp
    · simp only [if_neg hsE, List.nil_append]
      by_cases hle : s + 1 ≤ E ∧ E < s + 1 + n
      · rw [if_pos hle, if_pos (by omega)]
      · rw [if_neg hle, if_neg (by omega)]

theorem flatMap_if_id {α : Type} (l : List α) (c : Bool) :
    (l.flatMap fun e => if c then [e] else []) = if c then l else [] := by
  cases c <;> induction l <;> simp_all

/-! ### Autoencoder trace structure lemmas -/

theorem aeBatchLoop_skeleton {P O : Type} (w : AEWorld P O) (ep : Nat) :
    ∀ (bs : List Batch) (i : Nat) (st : O × P) (last : Option ℚ),
      skeleton (aeBatchLoop w ep i st last bs).2.2
        = (List.range' i bs.length).map (Tag.step ep) := by
  intro bs
  induction bs with
  | nil => intro i st last; simp [aeBatchLoop, skeleton]
  | cons b bs ih =>
    intro i st last
    have h2 := ih (i + 1) (w.adamStep st.1 st.2 b)
      (some (mSELossMean (w.forward st.2 b) b))
    simp only [skeleton] at h2 ⊢
    simp [aeBatchLoop, aeBatchStep, tagOf, h2, List.range'_succ]

theorem aeEpochLoop_skeleton {P O : Type} (a : AEArgs) (w : AEWorld P O) :
    ∀ (rem e0 : Nat) (st : O × P) (last : Option ℚ) stF lastF evs,
      aeEpochLoop a w e0 rem st last = .ok (stF, lastF, evs) →
      skeleton evs
        = (List.range' e0 rem).flatMap (aeEpochTags a w.trainBatches.length) := by
  intro rem
  induction rem with
  | zero =>
    intro e0 st last stF lastF evs h
    simp only [aeEpochLoop] at h
    cases h
    simp [skeleton]
  | succ n ih =>
    intro e0 st last stF lastF evs h
    simp only [aeEpochLoop] at h
    split at h
    · exact absurd h (by simp)
    · rename_i logEvs hlog
      split at h
      · exact absurd h (by simp)
      · rename_i stF' lastF' rest hrec
        injection h with h
        injection h with h1 h
        injection h with h2 h3
        subst h3
        simp only [skeleton, List.filterMap_append]
        rw [show List.filterMap tagOf
            (aeBatchLoop w e0 0 st last w.trainBatches).2.2
          = skeleton (aeBatchLoop w e0 0 st last w.trainBatches).2.2 from rfl,
          aeBatchLoop_skeleton,
          show List.filterMap tagOf rest = skeleton rest from rfl,
          ih (e0 + 1) _ _ _ _ _ hrec, List.range'_succ, List.flatMap_cons]
        have hsave : List.filterMap tagOf
            (if pyTruthy a.savePath then [Event.save "autoencoder" e0] else [])
            = (if pyTruthy a.savePath then [Tag.save e0] else []) := by
          cases pyTruthy a.savePath <;> simp [tagOf]
        have hlogEvs : List.filterMap tagOf logEvs
            = (if pyTruthy a.wandbLogin
                then [Tag.wlog e0 "autoencoder_loss"] else []) := by
          by_cases hw : pyTruthy a.wandbLogin
          · rw [if_pos hw] at hlog
            rw [if_pos hw]
            cases hr : (aeBatchLoop w e0 0 st last w.trainBatches).2.1 with
            | none => rw [hr] at hlog; cases hlog
            | some v => rw [hr] at hlog; cases hlog; simp [tagOf]
          · rw [if_neg hw] at hlog
            rw [if_neg hw]
            cases hlog
            simp
        rw [hsave, hlogEvs]
        simp [aeEpochTags, List.range_eq_range']

theorem train_autoencoder_skeleton {P O : Type} (a : AEArgs) (w : AEWorld P O)
    (tr : List Event) (p : P)
    (h : train_autoencoder a w = .ok (tr, p)) :
    skeleton tr = aeExpectedSkeleton a w.trainBatches.length := by
  simp only [train_autoencoder] at h
  split at h
  · exact absurd h (by simp)
  · rename_i st lastF evs hloop
    injection h with h
    injection h with h1 h2
    subst h1
    simp only [skeleton, List.filterMap_append]
    rw [show List.filterMap tagOf evs = skeleton evs from rfl,
      aeEpochLoop_skeleton a w a.epochs 0 _ _ _ _ _ hloop]
    have hsetup : List.filterMap tagOf
        [Event.manualSeed a.seed,
         Event.constructDataset "train", Event.constructDataset "test",
         Event.constructLoader a.trainBatchSize,
         Event.constructModel "AutoEncoder", Event.toDevice "autoencoder",
         Event.constructOptimizer "autoencoder.parameters" a.lr,
         Event.constructCriterion "MSELoss"]
        = [Tag.dataset "train", Tag.dataset "test", Tag.loader,
           Tag.model "AutoEncoder", Tag.optimizer "autoencoder.parameters",
           Tag.criterion "MSELoss"] := rfl
    have hwinit : List.filterMap tagOf
        (if pyTruthy a.wandbLogin
          then [Event.wandbInit "autoencoder" (a.wandbLogin.getD "")] else [])
        = (if pyTruthy a.wandbLogin then [Tag.winit] else []) := by
      cases pyTruthy a.wandbLogin <;> simp [tagOf]
    have heval : List.filterMap tagOf
        (if a.toEvaluate then [Event.evaluate "autoencoder"] else [])
        = (if a.toEvaluate then [Tag.evalCall "autoencoder"] else []) := by
      cases a.toEvaluate <;> simp [tagOf]
    rw [hsetup, hwinit, heval, aeExpectedSkeleton, List.range_eq_range']

/-! ### Classifier trace structure lemmas -/

theorem clsBatchLoop_skeleton {E C O : Type} (w : ClsWorld E C O) (ep : Nat) :
    ∀ (bs : List ClsBatch) (i : Nat) (st : O × E × C) (acc : ℚ),
      skeleton (clsBatchLoop w ep i st acc bs).2.2
        = (List.range' i bs.length).map (Tag.step ep) := by
  intro bs
  induction bs with
  | nil => intro i st acc; simp [clsBatchLoop, skeleton]
  | cons b bs ih =>
    intro i st acc
    obtain ⟨o, e, c⟩ := st
    have h2 := ih (i + 1) ((w.adamStep o c e b).1, e, (w.adamStep o c e b).2)
      (acc + w.ceLoss (w.clsFwd c (w.encFwd e b.img)) b.label)
    simp only [skeleton] at h2 ⊢
    simp [clsBatchLoop, tagOf, h2, List.range'_succ]

theorem clsEpochLoop_skeleton {E C O : Type} (a : ClsArgs) (w : ClsWorld E C O) :
    ∀ (rem e0 : Nat) (st : O × E × C) stF evs,
      clsEpochLoop a w e0 rem st = .ok (stF, evs) →
      skeleton evs
        = (List.range' e0 rem).flatMap (clsEpochTags a w.trainBatches.length) := by
  intro rem
  induction rem with
  | zero =>
    intro e0 st stF evs h
    simp only [clsEpochLoop] at h
    cases h
    simp [skeleton]
  | succ n ih =>
    intro e0 st stF evs h
    simp only [clsEpochLoop] at h
    split at h
    · exact absurd h (by simp)
    · rename_i epochLoss hdiv
      split at h
      · exact absurd h (by simp)
      · rename_i stF' rest hrec
        injection h with h
        injection h with h1 h2
        subst h2
        simp only [skeleton, List.filterMap_append]
        rw [show List.filterMap tagOf
            (clsBatchLoop w e0 0 st 0 w.trainBatches).2.2
          = skeleton (clsBatchLoop w e0 0 st 0 w.trainBatches).2.2 from rfl,
          clsBatchLoop_skeleton,
          show List.filterMap tagOf rest = skeleton rest from rfl,
          ih (e0 + 1) _ _ _ hrec, List.range'_succ, List.flatMap_cons]
        have hlogEvs : List.filterMap tagOf
            (if pyTruthy a.wandbLogin
              then [Event.wandbLog e0 "classifier_loss" epochLoss] else [])
            = (if pyTruthy a.wandbLogin
                then [Tag.wlog e0 "classifier_loss"] else []) := by
          cases pyTruthy a.wandbLogin <;> simp [tagOf]
        have hsave : List.filterMap tagOf
            (if pyTruthy a.savePath then [Event.save "classifier" e0] else [])
            = (if pyTruthy a.savePath then [Tag.save e0] else []) := by
          cases pyTruthy a.savePath <;> simp [tagOf]
        rw [hlogEvs, hsave]
        simp [clsEpochTags, List.range_eq_range', tagOf]

theorem train_classifier_skeleton {E C O : Type} (a : ClsArgs)
    (w : ClsWorld E C O) (tr : List Event) (eF : E) (cF : C)
    (h : train_classifier a w = .ok (tr, eF, cF)) :
    skeleton tr = clsExpectedSkeleton a w.trainBatches.length := by
  simp only [train_classifier] at h
  split at h
  · exact absurd h (by simp)
  · rename_i st evs hloop
    injection h with h
    injection h with h1 h2
    subst h1
    simp only [skeleton, List.filterMap_append]
    rw [show List.filterMap tagOf evs = skeleton evs from rfl,
      clsEpochLoop_skeleton a w a.epochs 0 _ _ _ hloop]
    have hsetup : List.filterMap tagOf
        [Event.manualSeed a.seed,
         Event.constructModel "Classifier", Event.toDevice "classifier",
         Event.toDevice "encoder",
         Event.constructDataset "train", Event.constructLoader a.trainBatchSize]
        = [Tag.model "Classifier", Tag.dataset "train", Tag.loader] := rfl
    have hwinit : List.filterMap tagOf
        (if pyTruthy a.wandbLogin
          then [Event.wandbInit "autoencoder" (a.wandbLogin.getD "")] else [])
        = (if pyTruthy a.wandbLogin then [Tag.winit] else []) := by
      cases pyTruthy a.wandbLogin <;> simp [tagOf]
    have hopt : List.filterMap tagOf
        [Event.constructOptimizer "classifier.parameters" a.lr,
         Event.constructCriterion "CrossEntropyLoss"]
        = [Tag.optimizer "classifier.parameters",
           Tag.criterion "CrossEntropyLoss"] := rfl
    have heval : List.filterMap tagOf
        (if a.toEvaluate then [Event.evaluate "classifier"] else [])
        = (if a.toEvaluate then [Tag.evalCall "classifier"] else []) := by
      cases a.toEvaluate <;> simp [tagOf]
    rw [hsetup, hwinit, hopt, heval, clsExpectedSkeleton, List.range_eq_range']

/-! ### Extractors factored through the skeleton -/

/-- The batch index of a step tag of epoch `e`. -/
def stepTag (e : Nat) : Tag → Option Nat
  | .step e' b => if e' = e then some b else none
  | _ => none

/-- The epoch of a save tag. -/
def saveTag : Tag → Option Nat
  | .save e => some e
  | _ => none

/-- The epoch and key of a log tag. -/
def logTag : Tag → Option (Nat × String)
  | .wlog e k => some (e, k)
  | _ => none

/-- The name of an evaluation tag. -/
def evalTag : Tag → Option String
  | .evalCall n => some n
  | _ => none

/-- A marker for a `wandb.init` tag. -/
def winitTag : Tag → Option Unit
  | .winit => some ()
  | _ => none

theorem stepsOfEpoch_skeleton (tr : List Event) (e : Nat) :
    stepsOfEpoch tr e = (skeleton tr).filterMap (stepTag e) := by
  simp only [skeleton, List.filterMap_filterMap, stepsOfEpoch]
  apply List.filterMap_congr
  intro ev _
  cases ev <;> simp [tagOf, stepTag]

theorem saveEpochs_skeleton (tr : List Event) :
    saveEpochs tr = (skeleton tr).filterMap saveTag := by
  simp only [skeleton, List.filterMap_filterMap, saveEpochs]
  apply List.filterMap_congr
  intro ev _
  cases ev <;> simp [tagOf, saveTag]

theorem logCalls_skeleton (tr : List Event) :
    logCalls tr = (skeleton tr).filterMap logTag := by
  simp only [skeleton, List.filterMap_filterMap, logCalls]
  apply List.filterMap_congr
  intro ev _
  cases ev <;> simp [tagOf, logTag]

theorem evalCallNames_skeleton (tr : List Event) :
    evalCallNames tr = (skeleton tr).filterMap evalTag := by
  simp only [skeleton, List.filterMap_filterMap, evalCallNames]
  apply List.filterMap_congr
  intro ev _
  cases ev <;> simp [tagOf, evalTag]

theorem wandbInitCount_skeleton (tr : List Event) :
    wandbInitCount tr = ((skeleton tr).filterMap winitTag).length := by
  induction tr with
  | nil => simp [wandbInitCount, skeleton]
  | cons ev tr ih =>
    cases ev <;>
      simp_all [wandbInitCount, skeleton, tagOf, winitTag, List.filter_cons]

/-! ### Computations over the expected skeletons -/

theorem flatMap_congr {α β : Type} {l : List α} {f g : α → List β}
    (h : ∀ a ∈ l, f a = g a) : l.flatMap f = l.flatMap g := by
  induction l with
  | nil => simp
  | cons x xs ih =>
    simp only [List.flatMap_cons]
    rw [h x (by simp), ih fun a ha => h a (by simp [ha])]

theorem flatMap_if_single {α β : Type} (l : List α) (c : Bool) (f : α → β) :
    (l.flatMap fun e => if c then [f e] else []) = if c then l.map f else [] := by
  cases c <;> induction l <;> simp_all

theorem aeEpochTags_steps (a : AEArgs) (n E e : Nat) :
    (aeEpochTags a n e).filterMap (stepTag E)
      = if e = E then List.range n else [] := by
  simp only [aeEpochTags, List.filterMap_append, List.filterMap_map]
  have h1 : List.filterMap (stepTag E ∘ Tag.step e) (List.range n)
      = if e = E then List.range n else [] := by
    by_cases h : e = E
    · subst h
      rw [if_pos rfl]
      have hsome : stepTag e ∘ Tag.step e = some := by
        funext b
        simp [stepTag, Function.comp]
      rw [hsome, List.filterMap_some]
    · simp [stepTag, h, Function.comp]
  have h2 : List.filterMap (stepTag E)
      (if pyTruthy a.savePath then [Tag.save e] else []) = [] := by
    cases pyTruthy a.savePath <;> simp [stepTag]
  have h3 : List.filterMap (stepTag E)
      (if pyTruthy a.wandbLogin then [Tag.wlog e "autoencoder_loss"] else [])
      = [] := by
    cases pyTruthy a.wandbLogin <;> simp [stepTag]
  rw [h1, h2, h3]
  simp

theorem aeExpected_steps (a : AEArgs) (n E : Nat) :
    (aeExpectedSkeleton a n).filterMap (stepTag E)
      = if E < a.epochs then List.range n else [] := by
  simp only [aeExpectedSkeleton, List.filterMap_append, List.filterMap_flatMap]
  have hsetup : List.filterMap (stepTag E)
      [Tag.dataset "train", Tag.dataset "test", Tag.loader,
       Tag.model "AutoEncoder", Tag.optimizer "autoencoder.parameters",
       Tag.criterion "MSELoss"] = [] := rfl
  have hwinit : List.filterMap (stepTag E)
      (if pyTruthy a.wandbLogin then [Tag.winit] else []) = [] := by
    cases pyTruthy a.wandbLogin <;> simp [stepTag]
  have heval : List.filterMap (stepTag E)
      (if a.toEvaluate then [Tag.evalCall "autoencoder"] else []) = [] := by
    cases a.toEvaluate <;> simp [stepTag]
  rw [hsetup, hwinit, heval,
    flatMap_congr (fun e _ => aeEpochTags_steps a n E e),
    List.range_eq_range', range'_flatMap_select E (fun _ => List.range n)]
  by_cases h : E < a.epochs <;> simp [h]

theorem aeExpected_saves (a : AEArgs) (n : Nat) :
    (aeExpectedSkeleton a n).filterMap saveTag
      = if pyTruthy a.savePath then List.range a.epochs else [] := by
  simp only [aeExpectedSkeleton, List.filterMap_append, List.filterMap_flatMap]
  have hsec : ∀ e ∈ List.range a.epochs, (aeEpochTags a n e).filterMap saveTag
      = (fun e => if pyTruthy a.savePath then [e] else []) e := by
    intro e _
    simp only [aeEpochTags, List.filterMap_append, List.filterMap_map]
    have h1 : List.filterMap (saveTag ∘ Tag.step e) (List.range n) = [] := by
      simp [saveTag, Function.comp]
    have h2 : List.filterMap saveTag
        (if pyTruthy a.savePath then [Tag.save e] else [])
        = (if pyTruthy a.savePath then [e] else []) := by
      cases pyTruthy a.savePath <;> simp [saveTag]
    have h3 : List.filterMap saveTag
        (if pyTruthy a.wandbLogin then [Tag.wlog e "autoencoder_loss"] else [])
        = [] := by
      cases pyTruthy a.wandbLogin <;> simp [saveTag]
    rw [h1, h2, h3]
    simp
  rw [flatMap_congr hsec]
  have hwinit : List.filterMap saveTag
      (if pyTruthy a.wandbLogin then [Tag.winit] else []) = [] := by
    cases pyTruthy a.wandbLogin <;> simp [saveTag]
  have heval : List.filterMap saveTag
      (if a.toEvaluate then [Tag.evalCall "autoencoder"] else []) = [] := by
    cases a.toEvaluate <;> simp [saveTag]
  rw [hwinit, heval]
  have hid : (List.range a.epochs).flatMap
      (fun e => if pyTruthy a.savePath then [e] else [])
      = if pyTruthy a.savePath then List.range a.epochs else [] := by
    rw [show (fun (e : Nat) => if pyTruthy a.savePath then [e] else [])
        = (fun e => if pyTruthy a.savePath then [id e] else []) from rfl,
      flatMap_if_single, List.map_id]
  rw [hid]
  cases pyTruthy a.savePath <;> simp [saveTag]

theorem aeExpected_logs (a : AEArgs) (n : Nat) :
    (aeExpectedSkeleton a n).filterMap logTag
      = if pyTruthy a.wandbLogin
        then (List.range a.epochs).map (fun e => (e, "autoencoder_loss"))
        else [] := by
  simp only [aeExpectedSkeleton, List.filterMap_append, List.filterMap_flatMap]
  have hsec : ∀ e ∈ List.range a.epochs, (aeEpochTags a n e).filterMap logTag
      = (fun e => if pyTruthy a.wandbLogin
          then [(e, "autoencoder_loss")] else []) e := by
    intro e _
    simp only [aeEpochTags, List.filterMap_append, List.filterMap_map]
    have h1 : List.filterMap (logTag ∘ Tag.step e) (List.range n) = [] := by
      simp [logTag, Function.comp]
    have h2 : List.filterMap logTag
        (if pyTruthy a.savePath then [Tag.save e] else []) = [] := by
      cases pyTruthy a.savePath <;> simp [logTag]
    have h3 : List.filterMap logTag
        (if pyTruthy a.wandbLogin then [Tag.wlog e "autoencoder_loss"] else [])
        = (if pyTruthy a.wandbLogin then [(e, "autoencoder_loss")] else []) := by
      cases pyTruthy a.wandbLogin <;> simp [logTag]
    rw [h1, h2, h3]
    simp
  rw [flatMap_congr hsec, flatMap_if_single]
  have hwinit : List.filterMap logTag
      (if pyTruthy a.wandbLogin then [Tag.winit] else []) = [] := by
    cases pyTruthy a.wandbLogin <;> simp [logTag]
  have heval : List.filterMap logTag
      (if a.toEvaluate then [Tag.evalCall "autoencoder"] else []) = [] := by
    cases a.toEvaluate <;> simp [logTag]
  rw [hwinit, heval]
  cases pyTruthy a.wandbLogin <;> simp [logTag]

theorem aeExpected_winit (a : AEArgs) (n : Nat) :
    (aeExpectedSkeleton a n).filterMap winitTag
      = if pyTruthy a.wandbLogin then [()] else [] := by
  simp only [aeExpectedSkeleton, List.filterMap_append, List.filterMap_flatMap]
  have hsec : ∀ e ∈ List.range a.epochs, (aeEpochTags a n e).filterMap winitTag
      = (fun _ => ([] : List Unit)) e := by
    intro e _
    simp only [aeEpochTags, List.filterMap_append, List.filterMap_map]
    have h1 : List.filterMap (winitTag ∘ Tag.step e) (List.range n) = [] := by
      simp [winitTag, Function.comp]
    have h2 : List.filterMap winitTag
        (if pyTruthy a.savePath then [Tag.save e] else []) = [] := by
      cases pyTruthy a.savePath <;> simp [winitTag]
    have h3 : List.filterMap winitTag
        (if pyTruthy a.wandbLogin then [Tag.wlog e "autoencoder_loss"] else [])
        = [] := by
      cases pyTruthy a.wandbLogin <;> simp [winitTag]
    rw [h1, h2, h3]
    simp
  rw [flatMap_congr hsec]
  have heval : List.filterMap winitTag
      (if a.toEvaluate then [Tag.evalCall "autoencoder"] else []) = [] := by
    cases a.toEvaluate <;> simp [winitTag]
  rw [heval]
  cases pyTruthy a.wandbLogin <;> simp [winitTag]

theorem aeExpected_evalCalls (a : AEArgs) (n : Nat) :
    (aeExpectedSkeleton a n).filterMap evalTag
      = if a.toEvaluate then ["autoencoder"] else [] := by
  simp only [aeExpectedSkeleton, List.filterMap_append, List.filterMap_flatMap]
  have hsec : ∀ e ∈ List.range a.epochs, (aeEpochTags a n e).filterMap evalTag
      = (fun _ => ([] : List String)) e := by
    intro e _
    simp only [aeEpochTags, List.filterMap_append, List.filterMap_map]
    have h1 : List.filterMap (evalTag ∘ Tag.step e) (List.range n) = [] := by
      simp [evalTag, Function.comp]
    have h2 : List.filterMap evalTag
        (if pyTruthy a.savePath then [Tag.save e] else []) = [] := by
      cases pyTruthy a.savePath <;> simp [evalTag]
    have h3 : List.filterMap evalTag
        (if pyTruthy a.wandbLogin then [Tag.wlog e "autoencoder_loss"] else [])
        = [] := by
      cases pyTruthy a.wandbLogin <;> simp [evalTag]
    rw [h1, h2, h3]
    simp
  rw [flatMap_congr hsec]
  have hwinit : List.filterMap evalTag
      (if pyTruthy a.wandbLogin then [Tag.winit] else []) = [] := by
    cases pyTruthy a.wandbLogin <;> simp [evalTag]
  rw [hwinit]
  cases a.toEvaluate <;> simp [evalTag]

theorem clsEpochTags_steps (a : ClsArgs) (n E e : Nat) :
    (clsEpochTags a n e).filterMap (stepTag E)
      = if e = E then List.range n else [] := by
  simp only [clsEpochTags, List.filterMap_append, List.filterMap_map]
  have h1 : List.filterMap (stepTag E ∘ Tag.step e) (List.range n)
      = if e = E then List.range n else [] := by
    by_cases h : e = E
    · subst h
      rw [if_pos rfl]
      have hsome : stepTag e ∘ Tag.step e = some := by
        funext b
        simp [stepTag, Function.comp]
      rw [hsome, List.filterMap_some]
    · simp [stepTag, h, Function.comp]
  have h2 : List.filterMap (stepTag E)
      (if pyTruthy a.wandbLogin then [Tag.wlog e "classifier_loss"] else [])
      = [] := by
    cases pyTruthy a.wandbLogin <;> simp [stepTag]
  have h3 : List.filterMap (stepTag E)
      (if pyTruthy a.savePath then [Tag.save e] else []) = [] := by
    cases pyTruthy a.savePath <;> simp [stepTag]
  rw [h1, h2, h3]
  simp

theorem clsExpected_steps (a : ClsArgs) (n E : Nat) :
    (clsExpectedSkeleton a n).filterMap (stepTag E)
      = if E < a.epochs then List.range n else [] := by
  simp only [clsExpectedSkeleton, List.filterMap_append, List.filterMap_flatMap]
  have hwinit : List.filterMap (stepTag E)
      (if pyTruthy a.wandbLogin then [Tag.winit] else []) = [] := by
    cases pyTruthy a.wandbLogin <;> simp [stepTag]
  have heval : List.filterMap (stepTag E)
      (if a.toEvaluate then [Tag.evalCall "classifier"] else []) = [] := by
    cases a.toEvaluate <;> simp [stepTag]
  rw [hwinit, heval,
    flatMap_congr (fun e _ => clsEpochTags_steps a n E e),
    List.range_eq_range', range'_flatMap_select E (fun _ => List.range n)]
  by_cases h : E < a.epochs <;> simp [h, stepTag]

theorem clsExpected_saves (a : ClsArgs) (n : Nat) :
    (clsExpectedSkeleton a n).filterMap saveTag
      = if pyTruthy a.savePath then List.range a.epochs else [] := by
  simp only [clsExpectedSkeleton, List.filterMap_append, List.filterMap_flatMap]
  have hsec : ∀ e ∈ List.range a.epochs, (clsEpochTags a n e).filterMap saveTag
      = (fun e => if pyTruthy a.savePath then [e] else []) e := by
    intro e _
    simp only [clsEpochTags, List.filterMap_append, List.filterMap_map]
    have h1 : List.filterMap (saveTag ∘ Tag.step e) (List.range n) = [] := by
      simp [saveTag, Function.comp]
    have h2 : List.filterMap saveTag
        (if pyTruthy a.wandbLogin then [Tag.wlog e "classifier_loss"] else [])
        = [] := by
      cases pyTruthy a.wandbLogin <;> simp [saveTag]
    have h3 : List.filterMap saveTag
        (if pyTruthy a.savePath then [Tag.save e] else [])
        = (if pyTruthy a.savePath then [e] else []) := by
      cases pyTruthy a.savePath <;> simp [saveTag]
    rw [h1, h2, h3]
    simp
  rw [flatMap_congr hsec]
  have hwinit : List.filterMap saveTag
      (if pyTruthy a.wandbLogin then [Tag.winit] else []) = [] := by
    cases pyTruthy a.wandbLogin <;> simp [saveTag]
  have heval : List.filterMap saveTag
      (if a.toEvaluate then [Tag.evalCall "classifier"] else []) = [] := by
    cases a.toEvaluate <;> simp [saveTag]
  rw [hwinit, heval]
  have hid : (List.range a.epochs).flatMap
      (fun e => if pyTruthy a.savePath then [e] else [])
      = if pyTruthy a.savePath then List.range a.epochs else [] := by
    rw [show (fun (e : Nat) => if pyTruthy a.savePath then [e] else [])
        = (fun e => if pyTruthy a.savePath then [id e] else []) from rfl,
      flatMap_if_single, List.map_id]
  rw [hid]
  cases pyTruthy a.savePath <;> simp [saveTag]

theorem clsExpected_logs (a : ClsArgs) (n : Nat) :
    (clsExpectedSkeleton a n).filterMap logTag
      = if pyTruthy a.wandbLogin
        then (List.range a.epochs).map (fun e => (e, "classifier_loss"))
        else [] := by
  simp only [clsExpectedSkeleton, List.filterMap_append, List.filterMap_flatMap]
  have hsec : ∀ e ∈ List.range a.epochs, (clsEpochTags a n e).filterMap logTag
      = (fun e => if pyTruthy a.wandbLogin
          then [(e, "classifier_loss")] else []) e := by
    intro e _
    simp only [clsEpochTags, List.filterMap_append, List.filterMap_map]
    have h1 : List.filterMap (logTag ∘ Tag.step e) (List.range n) = [] := by
      simp [logTag, Function.comp]
    have h2 : List.filterMap logTag
        (if pyTruthy a.wandbLogin then [Tag.wlog e "classifier_loss"] else [])
        = (if pyTruthy a.wandbLogin then [(e, "classifier_loss")] else []) := by
      cases pyTruthy a.wandbLogin <;> simp [logTag]
    have h3 : List.filterMap logTag
        (if pyTruthy a.savePath then [Tag.save e] else []) = [] := by
      cases pyTruthy a.savePath <;> simp [logTag]
    rw [h1, h2, h3]
    simp
  rw [flatMap_congr hsec, flatMap_if_single]
  have hwinit : List.filterMap logTag
      (if pyTruthy a.wandbLogin then [Tag.winit] else []) = [] := by
    cases pyTruthy a.wandbLogin <;> simp [logTag]
  have heval : List.filterMap logTag
      (if a.toEvaluate then [Tag.evalCall "classifier"] else []) = [] := by
    cases a.toEvaluate <;> simp [logTag]
  rw [hwinit, heval]
  cases pyTruthy a.wandbLogin <;> simp [logTag]

theorem clsExpected_winit (a : ClsArgs) (n : Nat) :
    (clsExpectedSkeleton a n).filterMap winitTag
      = if pyTruthy a.wandbLogin then [()] else [] := by
  simp only [clsExpectedSkeleton, List.filterMap_append, List.filterMap_flatMap]
  have hsec : ∀ e ∈ List.range a.epochs, (clsEpochTags a n e).filterMap winitTag
      = (fun _ => ([] : List Unit)) e := by
    intro e _
    simp only [clsEpochTags, List.filterMap_append, List.filterMap_map]
    have h1 : List.filterMap (winitTag ∘ Tag.step e) (List.range n) = [] := by
      simp [winitTag, Function.comp]
    have h2 : List.filterMap winitTag
        (if pyTruthy a.wandbLogin then [Tag.wlog e "classifier_loss"] else [])
        = [] := by
      cases pyTruthy a.wandbLogin <;> simp [winitTag]
    have h3 : List.filterMap winitTag
        (if pyTruthy a.savePath then [Tag.save e] else []) = [] := by
      cases pyTruthy a.savePath <;> simp [winitTag]
    rw [h1, h2, h3]
    simp
  rw [flatMap_congr hsec]
  have heval : List.filterMap winitTag
      (if a.toEvaluate then [Tag.evalCall "classifier"] else []) = [] := by
    cases a.toEvaluate <;> simp [winitTag]
  rw [heval]
  cases pyTruthy a.wandbLogin <;> simp [winitTag]

theorem clsExpected_evalCalls (a : ClsArgs) (n : Nat) :
    (clsExpectedSkeleton a n).filterMap evalTag
      = if a.toEvaluate then ["classifier"] else [] := by
  simp only [clsExpectedSkeleton, List.filterMap_append, List.filterMap_flatMap]
  have hsec : ∀ e ∈ List.range a.epochs, (clsEpochTags a n e).filterMap evalTag
      = (fun _ => ([] : List String)) e := by
    intro e _
    simp only [clsEpochTags, List.filterMap_append, List.filterMap_map]
    have h1 : List.filterMap (evalTag ∘ Tag.step e) (List.range n) = [] := by
      simp [evalTag, Function.comp]
    have h2 : List.filterMap evalTag
        (if pyTruthy a.wandbLogin then [Tag.wlog e "classifier_loss"] else [])
        = [] := by
      cases pyTruthy a.wandbLogin <;> simp [evalTag]
    have h3 : List.filterMap evalTag
        (if pyTruthy a.savePath then [Tag.save e] else []) = [] := by
      cases pyTruthy a.savePath <;> simp [evalTag]
    rw [h1, h2, h3]
    simp
  rw [flatMap_congr hsec]
  have hwinit : List.filterMap evalTag
      (if pyTruthy a.wandbLogin then [Tag.winit] else []) = [] := by
    cases pyTruthy a.wandbLogin <;> simp [evalTag]
  rw [hwinit]
  cases a.toEvaluate <;> simp [evalTag]

/-! ### State evolution and frame lemmas -/

theorem aeBatchLoop_state {P O : Type} (w : AEWorld P O) (ep : Nat) :
    ∀ (bs : List Batch) (i : Nat) (st : O × P) (last : Option ℚ),
      (aeBatchLoop w ep i st last bs).1 = aeRunBatches w st bs := by
  intro bs
  induction bs with
  | nil => intro i st last; simp [aeBatchLoop, aeRunBatches]
  | cons b bs ih =>
    intro i st last
    simp only [aeBatchLoop, aeBatchStep, aeRunBatches, List.foldl_cons]
    exact ih (i + 1) _ _

theorem clsBatchLoop_state {E C O : Type} (w : ClsWorld E C O) (ep : Nat) :
    ∀ (bs : List ClsBatch) (i : Nat) (st : O × E × C) (acc : ℚ),
      (clsBatchLoop w ep i st acc bs).1 = clsRunBatches w st bs := by
  intro bs
  induction bs with
  | nil => intro i st acc; simp [clsBatchLoop, clsRunBatches]
  | cons b bs ih =>
    intro i st acc
    obtain ⟨o, e, c⟩ := st
    simp only [clsBatchLoop, clsRunBatches, List.foldl_cons]
    exact ih (i + 1) _ _

theorem clsBatchLoop_encoder {E C O : Type} (w : ClsWorld E C O) (ep : Nat)
    (bs : List ClsBatch) (i : Nat) (st : O × E × C) (acc : ℚ) :
    ((clsBatchLoop w ep i st acc bs).1).2.1 = st.2.1 := by
  rw [clsBatchLoop_state]
  induction bs generalizing st with
  | nil => simp [clsRunBatches]
  | cons b bs ih =>
    simp only [clsRunBatches, List.foldl_cons] at *
    rw [ih]
    simp [clsRunBatch]

theorem clsEpochLoop_encoder {E C O : Type} (a : ClsArgs) (w : ClsWorld E C O) :
    ∀ (rem e0 : Nat) (st : O × E × C) stF evs,
      clsEpochLoop a w e0 rem st = .ok (stF, evs) → stF.2.1 = st.2.1 := by
  intro rem
  induction rem with
  | zero =>
    intro e0 st stF evs h
    simp only [clsEpochLoop] at h
    cases h
    rfl
  | succ n ih =>
    intro e0 st stF evs h
    simp only [clsEpochLoop] at h
    split at h
    · exact absurd h (by simp)
    · split at h
      · exact absurd h (by simp)
      · rename_i stF' rest hrec
        injection h with h
        injection h with h1 h2
        subst h1
        rw [ih (e0 + 1) _ _ _ hrec, clsBatchLoop_encoder]

theorem train_classifier_encoder {E C O : Type} (a : ClsArgs)
    (w : ClsWorld E C O) (tr : List Event) (eF : E) (cF : C)
    (h : train_classifier a w = .ok (tr, eF, cF)) : eF = w.encoderInit := by
  simp only [train_classifier] at h
  split at h
  · exact absurd h (by simp)
  · rename_i st evs hloop
    injection h with h
    injection h with h1 h2
    injection h2 with h2 h3
    subst h2
    exact clsEpochLoop_encoder a w a.epochs 0 _ _ _ hloop

/-! ### Absence of evaluation events inside the loops -/

theorem aeBatchLoop_noEval {P O : Type} (w : AEWorld P O) (ep : Nat) :
    ∀ (bs : List Batch) (i : Nat) (st : O × P) (last : Option ℚ),
      ∀ ev ∈ (aeBatchLoop w ep i st last bs).2.2, isEvalEvent ev = false := by
  intro bs
  induction bs with
  | nil => intro i st last ev hev; simp [aeBatchLoop] at hev
  | cons b bs ih =>
    intro i st last ev hev
    simp only [aeBatchLoop, aeBatchStep, List.mem_append, List.mem_cons] at hev
    rcases hev with h | h
    · rcases h with h | h | h | h | h <;> first
        | (subst h; rfl)
        | exact absurd h (by simp)
    · exact ih (i + 1) _ _ ev h

theorem aeEpochLoop_noEval {P O : Type} (a : AEArgs) (w : AEWorld P O) :
    ∀ (rem e0 : Nat) (st : O × P) (last : Option ℚ) stF lastF evs,
      aeEpochLoop a w e0 rem st last = .ok (stF, lastF, evs) →
      ∀ ev ∈ evs, isEvalEvent ev = false := by
  intro rem
  induction rem with
  | zero =>
    intro e0 st last stF lastF evs h
    simp only [aeEpochLoop] at h
    cases h
    intro ev hev
    simp at hev
  | succ n ih =>
    intro e0 st last stF lastF evs h
    simp only [aeEpochLoop] at h
    split at h
    · exact absurd h (by simp)
    · rename_i logEvs hlog
      split at h
      · exact absurd h (by simp)
      · rename_i stF' lastF' rest hrec
        injection h with h
        injection h with h1 h
        injection h with h2 h3
        subst h3
        intro ev hev
        simp only [List.mem_append] at hev
        rcases hev with ((hb | hs) | hl) | hr
        · exact aeBatchLoop_noEval w e0 _ 0 st last ev hb
        · revert hs
          cases pyTruthy a.savePath <;> intro hs <;> simp at hs
          subst hs
          rfl
        · revert hl
          by_cases hw : pyTruthy a.wandbLogin
          · rw [if_pos hw] at hlog
            cases hr2 : (aeBatchLoop w e0 0 st last w.trainBatches).2.1 with
            | none => rw [hr2] at hlog; cases hlog
            | some v =>
              rw [hr2] at hlog
              cases hlog
              intro hl
              simp at hl
              subst hl
              rfl
          · rw [if_neg hw] at hlog
            cases hlog
            intro hl
            simp at hl
        · exact ih (e0 + 1) _ _ _ _ _ hrec ev hr

theorem clsBatchLoop_noEval {E C O : Type} (w : ClsWorld E C O) (ep : Nat) :
    ∀ (bs : List ClsBatch) (i : Nat) (st : O × E × C) (acc : ℚ),
      ∀ ev ∈ (clsBatchLoop w ep i st acc bs).2.2, isEvalEvent ev = false := by
  intro bs
  induction bs with
  | nil => intro i st acc ev hev; simp [clsBatchLoop] at hev
  | cons b bs ih =>
    intro i st acc ev hev
    obtain ⟨o, e, c⟩ := st
    simp only [clsBatchLoop, List.mem_append, List.mem_cons] at hev
    rcases hev with h | h
    · rcases h with h | h | h | h <;> first
        | (subst h; rfl)
        | exact absurd h (by simp)
    · exact ih (i + 1) _ _ ev h

theorem clsEpochLoop_noEval {E C O : Type} (a : ClsArgs) (w : ClsWorld E C O) :
    ∀ (rem e0 : Nat) (st : O × E × C) stF evs,
      clsEpochLoop a w e0 rem st = .ok (stF, evs) →
      ∀ ev ∈ evs, isEvalEvent ev = false := by
  intro rem
  induction rem with
  | zero =>
    intro e0 st stF evs h
    simp only [clsEpochLoop] at h
    cases h
    intro ev hev
    simp at hev
  | succ n ih =>
    intro e0 st stF evs h
    simp only [clsEpochLoop] at h
    split at h
    · exact absurd h (by simp)
    · rename_i epochLoss hdiv
      split at h
      · exact absurd h (by simp)
      · rename_i stF' rest hrec
        injection h with h
        injection h with h1 h2
        subst h2
        intro ev hev
        simp only [List.mem_append] at hev
        rcases hev with (((hb | hp) | hl) | hs) | hr
        · exact clsBatchLoop_noEval w e0 _ 0 st 0 ev hb
        · simp at hp
          subst hp
          rfl
        · revert hl
          cases pyTruthy a.wandbLogin <;> intro hl <;> simp at hl
          subst hl
          rfl
        · revert hs
          cases pyTruthy a.savePath <;> intro hs <;> simp at hs
          subst hs
          rfl
        · exact ih (e0 + 1) _ _ _ hrec ev hr

/-! ### Loss streams -/

theorem mse_eq_spec {P O : Type} (w : AEWorld P O)
    (hlen : ∀ p b, (w.forward p b).length = b.length) (p : P) (b : Batch) :
    mSELossMean (w.forward p b) b
      = meanSquaredReconstructionError (w.forward p b) b := by
  simp [mSELossMean, meanSquaredReconstructionError, hlen]

theorem aeBatchLoop_trace_spec {P O : Type} (w : AEWorld P O)
    (hlen : ∀ p b, (w.forward p b).length = b.length) (ep : Nat) :
    ∀ (bs : List Batch) (i : Nat) (st : O × P) (last : Option ℚ),
      (aeBatchLoop w ep i st last bs).2.2 = aeSpecBatchTrace w ep i st bs := by
  intro bs
  induction bs with
  | nil => intro i st last; simp [aeBatchLoop, aeSpecBatchTrace]
  | cons b bs ih =>
    intro i st last
    simp only [aeBatchLoop, aeBatchStep, aeSpecBatchTrace, mse_eq_spec w hlen]
    rw [ih (i + 1) _ _]
    rfl

theorem backwardLosses_specBatchTrace {P O : Type} (w : AEWorld P O)
    (ep : Nat) :
    ∀ (bs : List Batch) (i : Nat) (st : O × P),
      backwardLosses (aeSpecBatchTrace w ep i st bs)
        = aeBatchSpecLosses w st bs := by
  intro bs
  induction bs with
  | nil => intro i st; simp [aeSpecBatchTrace, backwardLosses, aeBatchSpecLosses]
  | cons b bs ih =>
    intro i st
    simp only [aeSpecBatchTrace, aeBatchSpecLosses, backwardLosses,
      List.filterMap_append] at *
    rw [ih (i + 1) _]
    rfl

theorem aeEpochLoop_backwardLosses {P O : Type} (a : AEArgs) (w : AEWorld P O)
    (hlen : ∀ p b, (w.forward p b).length = b.length) :
    ∀ (rem e0 : Nat) (st : O × P) (last : Option ℚ) stF lastF evs,
      aeEpochLoop a w e0 rem st last = .ok (stF, lastF, evs) →
      backwardLosses evs = aeSpecLossStream w rem st := by
  intro rem
  induction rem with
  | zero =>
    intro e0 st last stF lastF evs h
    simp only [aeEpochLoop] at h
    cases h
    simp [backwardLosses, aeSpecLossStream]
  | succ n ih =>
    intro e0 st last stF lastF evs h
    simp only [aeEpochLoop] at h
    split at h
    · exact absurd h (by simp)
    · rename_i logEvs hlog
      split at h
      · exact absurd h (by simp)
      · rename_i stF' lastF' rest hrec
        injection h with h
        injection h with h1 h
        injection h with h2 h3
        subst h3
        simp only [backwardLosses, List.filterMap_append]
        have hsave : List.filterMap
            (fun ev => match ev with
              | Event.backward _ _ v => some v
              | _ => none)
            (if pyTruthy a.savePath then [Event.save "autoencoder" e0] else [])
            = [] := by
          cases pyTruthy a.savePath <;> simp
        have hlogEvs : List.filterMap
            (fun ev => match ev with
              | Event.backward _ _ v => some v
              | _ => none) logEvs = [] := by
          by_cases hw : pyTruthy a.wandbLogin
          · rw [if_pos hw] at hlog
            cases hr2 : (aeBatchLoop w e0 0 st last w.trainBatches).2.1 with
            | none => rw [hr2] at hlog; cases hlog
            | some v => rw [hr2] at hlog; cases hlog; simp
          · rw [if_neg hw] at hlog
            cases hlog
            simp
        rw [hsave, hlogEvs,
          show (List.filterMap
            (fun ev => match ev with
              | Event.backward _ _ v => some v
              | _ => none) (aeBatchLoop w e0 0 st last w.trainBatches).2.2)
            = backwardLosses (aeBatchLoop w e0 0 st last w.trainBatches).2.2
            from rfl,
          aeBatchLoop_trace_spec w hlen, backwardLosses_specBatchTrace,
          show (List.filterMap
            (fun ev => match ev with
              | Event.backward _ _ v => some v
              | _ => none) rest) = backwardLosses rest from rfl,
          ih (e0 + 1) _ _ _ _ _ hrec, aeSpecLossStream]
        rw [aeBatchLoop_state]
        simp

theorem train_autoencoder_backwardLosses {P O : Type} (a : AEArgs)
    (w : AEWorld P O)
    (hlen : ∀ p b, (w.forward p b).length = b.length)
    (tr : List Event) (p : P)
    (h : train_autoencoder a w = .ok (tr, p)) :
    backwardLosses tr
      = aeSpecLossStream w a.epochs (w.initOpt, w.initParams) := by
  simp only [train_autoencoder] at h
  split at h
  · exact absurd h (by simp)
  · rename_i st lastF evs hloop
    injection h with h
    injection h with h1 h2
    subst h1
    simp only [backwardLosses, List.filterMap_append]
    have hsetup : List.filterMap
        (fun ev => match ev with
          | Event.backward _ _ v => some v
          | _ => none)
        [Event.manualSeed a.seed,
         Event.constructDataset "train", Event.constructDataset "test",
         Event.constructLoader a.trainBatchSize,
         Event.constructModel "AutoEncoder", Event.toDevice "autoencoder",
         Event.constructOptimizer "autoencoder.parameters" a.lr,
         Event.constructCriterion "MSELoss"] = [] := rfl
    have hwinit : List.filterMap
        (fun ev => match ev with
          | Event.backward _ _ v => some v
          | _ => none)
        (if pyTruthy a.wandbLogin
          then [Event.wandbInit "autoencoder" (a.wandbLogin.getD "")] else [])
        = [] := by
      cases pyTruthy a.wandbLogin <;> simp
    have heval : List.filterMap
        (fun ev => match ev with
          | Event.backward _ _ v => some v
          | _ => none)
        (if a.toEvaluate then [Event.evaluate "autoencoder"] else []) = [] := by
      cases a.toEvaluate <;> simp
    rw [hsetup, hwinit, heval,
      show (List.filterMap
        (fun ev => match ev with
          | Event.backward _ _ v => some v
          | _ => none) evs) = backwardLosses evs from rfl,
      aeEpochLoop_backwardLosses a w hlen a.epochs 0 _ _ _ _ _ hloop]
    simp

/-! ### Classifier epoch means -/

theorem clsBatchLoop_acc {E C O : Type} (w : ClsWorld E C O) (ep : Nat) :
    ∀ (bs : List ClsBatch) (i : Nat) (st : O × E × C) (acc : ℚ),
      (clsBatchLoop w ep i st acc bs).2.1
        = acc + (clsBatchSpecLosses w st bs).sum := by
  intro bs
  induction bs with
  | nil => intro i st acc; simp [clsBatchLoop, clsBatchSpecLosses]
  | cons b bs ih =>
    intro i st acc
    obtain ⟨o, e, c⟩ := st
    simp only [clsBatchLoop, clsBatchSpecLosses, List.sum_cons]
    rw [ih (i + 1) _ _]
    simp only [clsBatchLossValue, clsRunBatch]
    ring

theorem clsBatchLoop_prints {E C O : Type} (w : ClsWorld E C O) (ep : Nat) :
    ∀ (bs : List ClsBatch) (i : Nat) (st : O × E × C) (acc : ℚ),
      printedValues (clsBatchLoop w ep i st acc bs).2.2 = [] := by
  intro bs
  induction bs with
  | nil => intro i st acc; simp [clsBatchLoop, printedValues]
  | cons b bs ih =>
    intro i st acc
    obtain ⟨o, e, c⟩ := st
    simp only [clsBatchLoop, printedValues, List.filterMap_append] at *
    rw [ih (i + 1) _ _]
    rfl

theorem clsBatchLoop_logVals {E C O : Type} (w : ClsWorld E C O) (ep : Nat) :
    ∀ (bs : List ClsBatch) (i : Nat) (st : O × E × C) (acc : ℚ),
      logValues (clsBatchLoop w ep i st acc bs).2.2 = [] := by
  intro bs
  induction bs with
  | nil => intro i st acc; simp [clsBatchLoop, logValues]
  | cons b bs ih =>
    intro i st acc
    obtain ⟨o, e, c⟩ := st
    simp only [clsBatchLoop, logValues, List.filterMap_append] at *
    rw [ih (i + 1) _ _]
    rfl

theorem clsEpochLoop_printsLogs {E C O : Type} (a : ClsArgs)
    (w : ClsWorld E C O) (hne : w.trainBatches.length ≠ 0) :
    ∀ (rem e0 : Nat) (st : O × E × C) stF evs,
      clsEpochLoop a w e0 rem st = .ok (stF, evs) →
      printedValues evs = clsEpochMeans w rem st ∧
      logValues evs
        = (if pyTruthy a.wandbLogin then clsEpochMeans w rem st else []) := by
  intro rem
  induction rem with
  | zero =>
    intro e0 st stF evs h
    simp only [clsEpochLoop] at h
    cases h
    constructor
    · simp [printedValues, clsEpochMeans]
    · cases pyTruthy a.wandbLogin <;> simp [logValues, clsEpochMeans]
  | succ n ih =>
    intro e0 st stF evs h
    simp only [clsEpochLoop] at h
    split at h
    · exact absurd h (by simp)
    · rename_i epochLoss hdiv
      split at h
      · exact absurd h (by simp)
      · rename_i stF' rest hrec
        injection h with h
        injection h with h1 h2
        subst h2
        have hloss : epochLoss
            = (clsBatchSpecLosses w st w.trainBatches).sum
              / (w.trainBatches.length : ℚ) := by
          simp only [pyDiv, if_neg hne] at hdiv
          injection hdiv with hdiv
          rw [← hdiv, clsBatchLoop_acc]
          simp
        have hst : (clsBatchLoop w e0 0 st 0 w.trainBatches).1
            = clsRunBatches w st w.trainBatches := clsBatchLoop_state w e0 _ 0 st 0
        have hih := ih (e0 + 1) _ _ _ hrec
        rw [hst] at hih
        constructor
        · simp only [printedValues, List.filterMap_append]
          rw [show (List.filterMap
              (fun ev => match ev with
                | Event.printVal v => some v
                | _ => none) (clsBatchLoop w e0 0 st 0 w.trainBatches).2.2)
              = printedValues (clsBatchLoop w e0 0 st 0 w.trainBatches).2.2
              from rfl,
            clsBatchLoop_prints]
          have hlogp : List.filterMap
              (fun ev => match ev with
                | Event.printVal v => some v
                | _ => none)
              (if pyTruthy a.wandbLogin
                then [Event.wandbLog e0 "classifier_loss" epochLoss] else [])
              = [] := by
            cases pyTruthy a.wandbLogin <;> simp
          have hsavep : List.filterMap
              (fun ev => match ev with
                | Event.printVal v => some v
                | _ => none)
              (if pyTruthy a.savePath then [Event.save "classifier" e0] else [])
              = [] := by
            cases pyTruthy a.savePath <;> simp
          rw [hlogp, hsavep,
            show (List.filterMap
              (fun ev => match ev with
                | Event.printVal v => some v
                | _ => none) rest) = printedValues rest from rfl,
            hih.1, clsEpochMeans, hloss]
          simp
        · simp only [logValues, List.filterMap_append]
          rw [show (List.filterMap
              (fun ev => match ev with
                | Event.wandbLog _ _ v => some v
                | _ => none) (clsBatchLoop w e0 0 st 0 w.trainBatches).2.2)
              = logValues (clsBatchLoop w e0 0 st 0 w.trainBatches).2.2
              from rfl,
            clsBatchLoop_logVals]
          have hlogl : List.filterMap
              (fun ev => match ev with
                | Event.wandbLog _ _ v => some v
                | _ => none)
              (if pyTruthy a.wandbLogin
                then [Event.wandbLog e0 "classifier_loss" epochLoss] else [])
              = (if pyTruthy a.wandbLogin then [epochLoss] else []) := by
            cases pyTruthy a.wandbLogin <;> simp
          have hsavel : List.filterMap
              (fun ev => match ev with
                | Event.wandbLog _ _ v => some v
                | _ => none)
              (if pyTruthy a.savePath then [Event.save "classifier" e0] else [])
              = [] := by
            cases pyTruthy a.savePath <;> simp
          rw [hlogl, hsavel,
            show (List.filterMap
              (fun ev => match ev with
                | Event.wandbLog _ _ v => some v
                | _ => none) rest) = logValues rest from rfl,
            hih.2, hloss]
          cases pyTruthy a.wandbLogin <;> simp [clsEpochMeans]

theorem train_classifier_printsLogs {E C O : Type} (a : ClsArgs)
    (w : ClsWorld E C O) (hne : w.trainBatches.length ≠ 0)
    (tr : List Event) (eF : E) (cF : C)
    (h : train_classifier a w = .ok (tr, eF, cF)) :
    printedValues tr
      = clsEpochMeans w a.epochs (w.initOpt, w.encoderInit, w.classifierInit) ∧
    logValues tr
      = (if pyTruthy a.wandbLogin
          then clsEpochMeans w a.epochs
            (w.initOpt, w.encoderInit, w.classifierInit)
          else []) := by
  simp only [train_classifier] at h
  split at h
  · exact absurd h (by simp)
  · rename_i st evs hloop
    injection h with h
    injection h with h1 h2
    subst h1
    have hmain := clsEpochLoop_printsLogs a w hne a.epochs 0 _ _ _ hloop
    have hsetupP : printedValues
        ([Event.manualSeed a.seed,
          Event.constructModel "Classifier", Event.toDevice "classifier",
          Event.toDevice "encoder",
          Event.constructDataset "train",
          Event.constructLoader a.trainBatchSize]
          ++ (if pyTruthy a.wandbLogin
              then [Event.wandbInit "autoencoder" (a.wandbLogin.getD "")]
              else [])
          ++ [Event.constructOptimizer "classifier.parameters" a.lr,
              Event.constructCriterion "CrossEntropyLoss"]) = [] := by
      cases pyTruthy a.wandbLogin <;> simp [printedValues]
    have hsetupL : logValues
        ([Event.manualSeed a.seed,
          Event.constructModel "Classifier", Event.toDevice "classifier",
          Event.toDevice "encoder",
          Event.constructDataset "train",
          Event.constructLoader a.trainBatchSize]
          ++ (if pyTruthy a.wandbLogin
              then [Event.wandbInit "autoencoder" (a.wandbLogin.getD "")]
              else [])
          ++ [Event.constructOptimizer "classifier.parameters" a.lr,
              Event.constructCriterion "CrossEntropyLoss"]) = [] := by
      cases pyTruthy a.wandbLogin <;> simp [logValues]
    have hevalP : printedValues
        (if a.toEvaluate then [Event.evaluate "classifier"] else []) = [] := by
      cases a.toEvaluate <;> simp [printedValues]
    have hevalL : logValues
        (if a.toEvaluate then [Event.evaluate "classifier"] else []) = [] := by
      cases a.toEvaluate <;> simp [logValues]
    constructor
    · simp only [printedValues, List.filterMap_append] at hsetupP hevalP ⊢
      rw [hsetupP, hevalP,
        show (List.filterMap
          (fun ev => match ev with
            | Event.printVal v => some v
            | _ => none) evs) = printedValues evs from rfl, hmain.1]
      simp
    · simp only [logValues, List.filterMap_append] at hsetupL hevalL ⊢
      rw [hsetupL, hevalL,
        show (List.filterMap
          (fun ev => match ev with
            | Event.wandbLog _ _ v => some v
            | _ => none) evs) = logValues evs from rfl, hmain.2]
      simp

theorem train_classifier_emptyLoader {E C O : Type} (a : ClsArgs)
    (w : ClsWorld E C O) (hb : w.trainBatches = []) (he : 1 ≤ a.epochs) :
    train_classifier a w = .error .zeroDivisionError := by
  obtain ⟨n, hn⟩ : ∃ n, a.epochs = n + 1 := ⟨a.epochs - 1, by omega⟩
  simp [train_classifier, hn, clsEpochLoop, hb, clsBatchLoop, pyDiv]

/-! ### Ordering of saves and logs relative to each epoch's batch loop -/

theorem aeExpected_saveOrder (a : AEArgs) (n : Nat)
    (hs : pyTruthy a.savePath = true) :
    ((List.range a.epochs).flatMap fun e =>
        (List.range n).map (Tag.step e) ++ [Tag.save e]).Sublist
      (aeExpectedSkeleton a n) := by
  have hsec : ∀ e ∈ List.range a.epochs,
      ((List.range n).map (Tag.step e) ++ [Tag.save e]).Sublist
        (aeEpochTags a n e) := by
    intro e _
    simp only [aeEpochTags, hs, if_true]
    exact List.sublist_append_left _ _
  have h1 := flatMap_sublist_flatMap (List.range a.epochs) _ _ hsec
  simp only [aeExpectedSkeleton, List.append_assoc]
  exact ((h1.trans (List.sublist_append_left _ _)).trans
    (List.sublist_append_right _ _)).trans (List.sublist_append_right _ _)

theorem clsExpected_saveOrder (a : ClsArgs) (n : Nat)
    (hs : pyTruthy a.savePath = true) :
    ((List.range a.epochs).flatMap fun e =>
        (List.range n).map (Tag.step e) ++ [Tag.save e]).Sublist
      (clsExpectedSkeleton a n) := by
  have hsec : ∀ e ∈ List.range a.epochs,
      ((List.range n).map (Tag.step e) ++ [Tag.save e]).Sublist
        (clsEpochTags a n e) := by
    intro e _
    simp only [clsEpochTags, hs, if_true]
    exact List.Sublist.append (List.sublist_append_left _ _)
      (List.Sublist.refl _)
  have h1 := flatMap_sublist_flatMap (List.range a.epochs) _ _ hsec
  simp only [clsExpectedSkeleton, List.append_assoc]
  exact (((h1.trans (List.sublist_append_left _ _)).trans
    (List.sublist_append_right _ _)).trans
    (List.sublist_append_right _ _)).trans (List.sublist_append_right _ _)

theorem aeExpected_logOrder (a : AEArgs) (n : Nat)
    (hw : pyTruthy a.wandbLogin = true) :
    (Tag.winit :: (List.range a.epochs).flatMap fun e =>
        (List.range n).map (Tag.step e)
          ++ [Tag.wlog e "autoencoder_loss"]).Sublist
      (aeExpectedSkeleton a n) := by
  have hsec : ∀ e ∈ List.range a.epochs,
      ((List.range n).map (Tag.step e)
          ++ [Tag.wlog e "autoencoder_loss"]).Sublist
        (aeEpochTags a n e) := by
    intro e _
    simp only [aeEpochTags, hw, if_true]
    exact List.Sublist.append (List.sublist_append_left _ _)
      (List.Sublist.refl _)
  have h1 := flatMap_sublist_flatMap (List.range a.epochs) _ _ hsec
  simp only [aeExpectedSkeleton, hw, if_true, List.append_assoc]
  refine List.Sublist.trans ?_ (List.sublist_append_right _ _)
  show ([Tag.winit] ++ (List.range a.epochs).flatMap fun e =>
      (List.range n).map (Tag.step e)
        ++ [Tag.wlog e "autoencoder_loss"]).Sublist _
  exact List.Sublist.append (List.Sublist.refl _)
    (h1.trans (List.sublist_append_left _ _))

theorem clsExpected_logOrder (a : ClsArgs) (n : Nat)
    (hw : pyTruthy a.wandbLogin = true) :
    (Tag.winit :: (List.range a.epochs).flatMap fun e =>
        (List.range n).map (Tag.step e)
          ++ [Tag.wlog e "classifier_loss"]).Sublist
      (clsExpectedSkeleton a n) := by
  have hsec : ∀ e ∈ List.range a.epochs,
      ((List.range n).map (Tag.step e)
          ++ [Tag.wlog e "classifier_loss"]).Sublist
        (clsEpochTags a n e) := by
    intro e _
    simp only [clsEpochTags, hw, if_true]
    exact List.sublist_append_left _ _
  have h1 := flatMap_sublist_flatMap (List.range a.epochs) _ _ hsec
  simp only [clsExpectedSkeleton, hw, if_true, List.append_assoc]
  refine List.Sublist.trans ?_ (List.sublist_append_right _ _)
  show ([Tag.winit] ++ (List.range a.epochs).flatMap fun e =>
      (List.range n).map (Tag.step e)
        ++ [Tag.wlog e "classifier_loss"]).Sublist _
  exact List.Sublist.append (List.Sublist.refl _)
    (((h1.trans (List.sublist_append_left _ _)).trans
      (List.sublist_append_right _ _)))

/-! ### Equivalence of the duplicated classifier trainer -/

theorem clsCopy_foldl {E C O : Type} (w : ClsWorld E C O) (ep : Nat) :
    ∀ (bs : List ClsBatch) (i : Nat) (st : O × E × C) (acc : ℚ)
      (evs0 : List Event),
      bs.foldl (clsCopyStep w ep) ((st, acc, i), evs0)
        = (((clsBatchLoop w ep i st acc bs).1,
            (clsBatchLoop w ep i st acc bs).2.1, i + bs.length),
           evs0 ++ (clsBatchLoop w ep i st acc bs).2.2) := by
  intro bs
  induction bs with
  | nil => intro i st acc evs0; simp [clsBatchLoop]
  | cons b bs ih =>
    intro i st acc evs0
    obtain ⟨o, e, c⟩ := st
    rw [List.foldl_cons]
    simp only [clsCopyStep]
    rw [ih (i + 1) _ _ _]
    simp only [clsBatchLoop, List.length_cons, Prod.mk.injEq,
      List.append_assoc, List.cons_append, List.nil_append]
    refine ⟨⟨?_, ?_, ?_⟩, ?_⟩ <;> first
      | omega
      | rfl
      | trivial

theorem clsBatchLoopCopy_eq {E C O : Type} (w : ClsWorld E C O) (ep : Nat)
    (bs : List ClsBatch) (i : Nat) (st : O × E × C) (acc : ℚ) :
    clsBatchLoopCopy w ep i st acc bs = clsBatchLoop w ep i st acc bs := by
  simp [clsBatchLoopCopy, clsCopy_foldl]

theorem clsEpochLoopCopy_eq {E C O : Type} (a : ClsArgs) (w : ClsWorld E C O) :
    ∀ (rem e0 : Nat) (st : O × E × C),
      clsEpochLoopCopy a w e0 rem st = clsEpochLoop a w e0 rem st := by
  intro rem
  induction rem with
  | zero => intro e0 st; rfl
  | succ n ih =>
    intro e0 st
    simp only [clsEpochLoopCopy, clsEpochLoop, clsBatchLoopCopy_eq, ih]

theorem train_classifier_copy_eq {E C O : Type} (a : ClsArgs)
    (w : ClsWorld E C O) :
    train_classifier_copy a w = train_classifier a w := by
  simp only [train_classifier_copy, train_classifier, clsEpochLoopCopy_eq]

/-! ### Concrete demonstration runs -/

/-- A small concrete autoencoder world: two one-pixel batches, identity
forward pass, trivial parameters and optimizer state. -/
def aeDemoWorld : AEWorld Unit Unit :=
  { trainBatches := [[1], [2]]
    initParams := ()
    forward := fun _ b => b
    initOpt := ()
    adamStep := fun _ _ _ => ((), ()) }

/-- Concrete autoencoder arguments: two epochs, save path and wandb login both
truthy, evaluation on. -/
def aeDemoArgs : AEArgs :=
  { epochs := 2, lr := 1, trainBatchSize := 2, testBatchSize := 2,
    toEvaluate := true, wandbLogin := some "user", savePath := some "model.pt",
    seed := 0 }

/-- The trace of the concrete autoencoder run. -/
def aeDemoTrace : List Event :=
  match train_autoencoder aeDemoArgs aeDemoWorld with
  | .ok (tr, _) => tr
  | .error _ => []

/-- Autoencoder arguments whose save path and wandb login are the empty
string: provided, but falsy under Python truthiness. -/
def aeEmptyStrArgs : AEArgs :=
  { epochs := 1, lr := 1, trainBatchSize := 1, testBatchSize := 1,
    toEvaluate := false, wandbLogin := some "", savePath := some "",
    seed := 0 }

/-- The trace of the autoencoder run with empty-string save path and login. -/
def aeEmptyStrTrace : List Event :=
  match train_autoencoder aeEmptyStrArgs aeDemoWorld with
  | .ok (tr, _) => tr
  | .error _ => []

/-- A small concrete classifier world: two batches, rational-valued encoder
and classifier parameters, a toy loss. -/
def clsDemoWorld : ClsWorld ℚ ℚ ℚ :=
  { trainBatches := [{ img := [1], label := [0] }, { img := [2], label := [1] }]
    encoderInit := 5
    classifierInit := 0
    encFwd := fun e xs => xs.map (fun x => x * e)
    clsFwd := fun c xs => xs.map (fun x => x + c)
    ceLoss := fun o l => (List.zipWith (fun x y => x - y) o l).sum
    initOpt := 0
    adamStep := fun o c _ _ => (o + 1, c + 1) }

/-- Concrete classifier arguments: two epochs, truthy save path and login,
evaluation on. -/
def clsDemoArgs : ClsArgs :=
  { channels := 256, epochs := 2, lr := 1, trainBatchSize := 2,
    testBatchSize := 2, toEvaluate := true, wandbLogin := some "user",
    savePath := some "model.pt", seed := 0 }

/-- The result of the concrete classifier run. -/
def clsDemoRun : Except PyError (List Event × ℚ × ℚ) :=
  train_classifier clsDemoArgs clsDemoWorld

/-- The trace of the concrete classifier run. -/
def clsDemoTrace : List Event :=
  match clsDemoRun with
  | .ok (tr, _, _) => tr
  | .error _ => []

/-- The final encoder parameters of the concrete classifier run. -/
def clsDemoEnc : ℚ :=
  match clsDemoRun with
  | .ok (_, e, _) => e
  | .error _ => 0

/-- The final classifier parameters of the concrete classifier run. -/
def clsDemoCls : ℚ :=
  match clsDemoRun with
  | .ok (_, _, c) => c
  | .error _ => 0

/-- The classifier world with an empty train loader. -/
def clsEmptyWorld : ClsWorld ℚ ℚ ℚ :=
  { clsDemoWorld with trainBatches := [] }

/-! ### Claims -/

/-- Claim C1, counterexample: in the classifier trainer the model is
constructed before the train dataset and loader, contrary to the claimed
"dataset → loader → model" order: the milestone skeleton of a concrete
classifier run starts with the model construction, and the dataset and loader
constructions come only after it. -/
theorem c1_counterexample :
    clsDemoRun = .ok (clsDemoTrace, clsDemoEnc, clsDemoCls) ∧
    skeleton clsDemoTrace
      = [Tag.model "Classifier", Tag.dataset "train", Tag.loader, Tag.winit,
         Tag.optimizer "classifier.parameters",
         Tag.criterion "CrossEntropyLoss",
         Tag.step 0 0, Tag.step 0 1, Tag.wlog 0 "classifier_loss", Tag.save 0,
         Tag.step 1 0, Tag.step 1 1, Tag.wlog 1 "classifier_loss", Tag.save 1,
         Tag.evalCall "classifier"] :=
  ⟨rfl, by decide⟩

/-- Claim C1 (amended): each trainer performs its setup and work in its own
fixed order.  The autoencoder trainer follows dataset → loader → model →
optimizer/criterion → optional wandb init → epochs (each epoch: the loader's
batches with an optimizer step each, then conditional save, then conditional
log) → conditional evaluation.  The classifier trainer constructs the model
first, then dataset → loader → optional wandb init → optimizer/criterion →
epochs (each epoch: batches/steps, then conditional log, then conditional
save) → conditional evaluation. -/
theorem c1_trace_order :
    (∀ (P O : Type) (a : AEArgs) (w : AEWorld P O) (tr : List Event) (p : P),
      train_autoencoder a w = .ok (tr, p) →
      skeleton tr = aeExpectedSkeleton a w.trainBatches.length) ∧
    (∀ (E C O : Type) (a : ClsArgs) (w : ClsWorld E C O) (tr : List Event)
        (eF : E) (cF : C),
      train_classifier a w = .ok (tr, eF, cF) →
      skeleton tr = clsExpectedSkeleton a w.trainBatches.length) :=
  ⟨fun _ _ a w tr p h => train_autoencoder_skeleton a w tr p h,
   fun _ _ _ a w tr eF cF h => train_classifier_skeleton a w tr eF cF h⟩

/-- Witness for C1 (amended) on the two concrete runs. -/
theorem c1_witness :
    skeleton aeDemoTrace
      = aeExpectedSkeleton aeDemoArgs aeDemoWorld.trainBatches.length ∧
    skeleton clsDemoTrace
      = clsExpectedSkeleton clsDemoArgs clsDemoWorld.trainBatches.length :=
  ⟨c1_trace_order.1 Unit Unit aeDemoArgs aeDemoWorld aeDemoTrace () rfl,
   c1_trace_order.2 ℚ ℚ ℚ clsDemoArgs clsDemoWorld clsDemoTrace clsDemoEnc
     clsDemoCls rfl⟩

/-- Claim C2: during classifier training the encoder is frozen — every
optimizer step of the batch loop leaves the encoder component of the state
unchanged, and the encoder parameters returned by a completed training run
equal the encoder parameters the run started from. -/
theorem c2_encoder_frozen :
    (∀ (E C O : Type) (w : ClsWorld E C O) (ep : Nat) (bs : List ClsBatch)
        (i : Nat) (st : O × E × C) (acc : ℚ),
      ((clsBatchLoop w ep i st acc bs).1).2.1 = st.2.1) ∧
    (∀ (E C O : Type) (a : ClsArgs) (w : ClsWorld E C O) (tr : List Event)
        (eF : E) (cF : C),
      train_classifier a w = .ok (tr, eF, cF) → eF = w.encoderInit) :=
  ⟨fun _ _ _ w ep bs i st acc => clsBatchLoop_encoder w ep bs i st acc,
   fun _ _ _ a w tr eF cF h => train_classifier_encoder a w tr eF cF h⟩

/-- Witness for C2 on the concrete classifier run. -/
theorem c2_witness : clsDemoEnc = clsDemoWorld.encoderInit :=
  c2_encoder_frozen.2 ℚ ℚ ℚ clsDemoArgs clsDemoWorld clsDemoTrace clsDemoEnc
    clsDemoCls rfl

/-- Claim C3: in the autoencoder trainer, every batch's loss is the mean
squared reconstruction error between the model's output on the batch's images
and those same images, the backward/step pair is applied to that loss
(each batch's trace is `zero_grad`, `backward` of that loss, `step`, print),
and over a completed run the backward losses are exactly the spec-side stream
of mean squared reconstruction errors. -/
theorem c3_reconstruction_loss :
    ∀ (P O : Type) (a : AEArgs) (w : AEWorld P O),
      (∀ p b, (w.forward p b).length = b.length) →
      (∀ (ep i : Nat) (st : O × P) (last : Option ℚ) (bs : List Batch),
        (aeBatchLoop w ep i st last bs).2.2 = aeSpecBatchTrace w ep i st bs) ∧
      (∀ (tr : List Event) (p : P),
        train_autoencoder a w = .ok (tr, p) →
        backwardLosses tr
          = aeSpecLossStream w a.epochs (w.initOpt, w.initParams)) :=
  fun _ _ a w hlen =>
    ⟨fun ep i st last bs => aeBatchLoop_trace_spec w hlen ep bs i st last,
     fun tr p h => train_autoencoder_backwardLosses a w hlen tr p h⟩

/-- Witness for C3 on the concrete autoencoder run. -/
theorem c3_witness :
    (aeBatchLoop aeDemoWorld 0 0 ((), ()) none [[1]]).2.2
      = aeSpecBatchTrace aeDemoWorld 0 0 ((), ()) [[1]] ∧
    backwardLosses aeDemoTrace
      = aeSpecLossStream aeDemoWorld aeDemoArgs.epochs
          (aeDemoWorld.initOpt, aeDemoWorld.initParams) :=
  ⟨(c3_reconstruction_loss Unit Unit aeDemoArgs aeDemoWorld
      (fun _ _ => rfl)).1 0 0 ((), ()) none [[1]],
   (c3_reconstruction_loss Unit Unit aeDemoArgs aeDemoWorld
      (fun _ _ => rfl)).2 aeDemoTrace () rfl⟩

/-- Claim C4, counterexample: with `save_path` the empty string — provided,
i.e. not `None` — the autoencoder run completes without a single save, so
"a save is performed if and only if a save_path is provided" is false. -/
theorem c4_counterexample :
    aeEmptyStrArgs.savePath = some "" ∧
    aeEmptyStrArgs.savePath ≠ none ∧
    train_autoencoder aeEmptyStrArgs aeDemoWorld = .ok (aeEmptyStrTrace, ()) ∧
    saveEpochs aeEmptyStrTrace = [] :=
  ⟨rfl, by decide, rfl, by decide⟩

/-- Claim C4 (amended): in both trainers a model save is performed once per
epoch, after the epoch's batch loop, if and only if `save_path` is truthy
(not `None` and not the empty string); when `save_path` is `None` — or empty —
no save ever occurs. -/
theorem c4_save_conditional :
    (∀ (P O : Type) (a : AEArgs) (w : AEWorld P O) (tr : List Event) (p : P),
      train_autoencoder a w = .ok (tr, p) →
      saveEpochs tr = (if pyTruthy a.savePath then List.range a.epochs else [])
      ∧ (a.savePath = none → saveEpochs tr = [])
      ∧ (pyTruthy a.savePath = true →
          ((List.range a.epochs).flatMap fun e =>
            (List.range w.trainBatches.length).map (Tag.step e)
              ++ [Tag.save e]).Sublist (skeleton tr))) ∧
    (∀ (E C O : Type) (a : ClsArgs) (w : ClsWorld E C O) (tr : List Event)
        (eF : E) (cF : C),
      train_classifier a w = .ok (tr, eF, cF) →
      saveEpochs tr = (if pyTruthy a.savePath then List.range a.epochs else [])
      ∧ (a.savePath = none → saveEpochs tr = [])
      ∧ (pyTruthy a.savePath = true →
          ((List.range a.epochs).flatMap fun e =>
            (List.range w.trainBatches.length).map (Tag.step e)
              ++ [Tag.save e]).Sublist (skeleton tr))) := by
  constructor
  · intro P O a w tr p h
    have hsk := train_autoencoder_skeleton a w tr p h
    refine ⟨?_, ?_, ?_⟩
    · rw [saveEpochs_skeleton, hsk, aeExpected_saves]
    · intro hnone
      rw [saveEpochs_skeleton, hsk, aeExpected_saves, hnone]
      rfl
    · intro htr
      rw [hsk]
      exact aeExpected_saveOrder a _ htr
  · intro E C O a w tr eF cF h
    have hsk := train_classifier_skeleton a w tr eF cF h
    refine ⟨?_, ?_, ?_⟩
    · rw [saveEpochs_skeleton, hsk, clsExpected_saves]
    · intro hnone
      rw [saveEpochs_skeleton, hsk, clsExpected_saves, hnone]
      rfl
    · intro htr
      rw [hsk]
      exact clsExpected_saveOrder a _ htr

/-- Witness for C4 (amended) on the concrete autoencoder run (truthy save
path: one save per epoch). -/
theorem c4_witness :
    saveEpochs aeDemoTrace
      = (if pyTruthy aeDemoArgs.savePath
          then List.range aeDemoArgs.epochs else []) :=
  (c4_save_conditional.1 Unit Unit aeDemoArgs aeDemoWorld aeDemoTrace ()
    rfl).1

/-- Claim C5, counterexample: with `wandb_login` the empty string — provided,
i.e. not `None` — the autoencoder run completes with no `wandb.init` and no
logged metric, so "a tracking run is initialized if and only if wandb_login
is provided" is false. -/
theorem c5_counterexample :
    aeEmptyStrArgs.wandbLogin = some "" ∧
    aeEmptyStrArgs.wandbLogin ≠ none ∧
    wandbInitCount aeEmptyStrTrace = 0 ∧
    logCalls aeEmptyStrTrace = [] :=
  ⟨rfl, by decide, by decide, by decide⟩

/-- Claim C5 (amended): in both trainers a tracking run is initialized before
the epoch loop if and only if `wandb_login` is truthy (not `None` and not the
empty string), and when it is truthy exactly one loss metric is logged per
epoch, after that epoch's batch loop; when `wandb_login` is `None` — or
empty — no tracking call is made. -/
theorem c5_wandb_conditional :
    (∀ (P O : Type) (a : AEArgs) (w : AEWorld P O) (tr : List Event) (p : P),
      train_autoencoder a w = .ok (tr, p) →
      wandbInitCount tr = (if pyTruthy a.wandbLogin then 1 else 0)
      ∧ logCalls tr = (if pyTruthy a.wandbLogin
          then (List.range a.epochs).map (fun e => (e, "autoencoder_loss"))
          else [])
      ∧ (a.wandbLogin = none → wandbInitCount tr = 0 ∧ logCalls tr = [])
      ∧ (pyTruthy a.wandbLogin = true →
          (Tag.winit :: (List.range a.epochs).flatMap fun e =>
            (List.range w.trainBatches.length).map (Tag.step e)
              ++ [Tag.wlog e "autoencoder_loss"]).Sublist (skeleton tr))) ∧
    (∀ (E C O : Type) (a : ClsArgs) (w : ClsWorld E C O) (tr : List Event)
        (eF : E) (cF : C),
      train_classifier a w = .ok (tr, eF, cF) →
      wandbInitCount tr = (if pyTruthy a.wandbLogin then 1 else 0)
      ∧ logCalls tr = (if pyTruthy a.wandbLogin
          then (List.range a.epochs).map (fun e => (e, "classifier_loss"))
          else [])
      ∧ (a.wandbLogin = none → wandbInitCount tr = 0 ∧ logCalls tr = [])
      ∧ (pyTruthy a.wandbLogin = true →
          (Tag.winit :: (List.range a.epochs).flatMap fun e =>
            (List.range w.trainBatches.length).map (Tag.step e)
              ++ [Tag.wlog e "classifier_loss"]).Sublist (skeleton tr))) := by
  constructor
  · intro P O a w tr p h
    have hsk := train_autoencoder_skeleton a w tr p h
    refine ⟨?_, ?_, ?_, ?_⟩
    · rw [wandbInitCount_skeleton, hsk, aeExpected_winit]
      cases pyTruthy a.wandbLogin <;> rfl
    · rw [logCalls_skeleton, hsk, aeExpected_logs]
    · intro hnone
      constructor
      · rw [wandbInitCount_skeleton, hsk, aeExpected_winit, hnone]
        rfl
      · rw [logCalls_skeleton, hsk, aeExpected_logs, hnone]
        rfl
    · intro htr
      rw [hsk]
      exact aeExpected_logOrder a _ htr
  · intro E C O a w tr eF cF h
    have hsk := train_classifier_skeleton a w tr eF cF h
    refine ⟨?_, ?_, ?_, ?_⟩
    · rw [wandbInitCount_skeleton, hsk, clsExpected_winit]
      cases pyTruthy a.wandbLogin <;> rfl
    · rw [logCalls_skeleton, hsk, clsExpected_logs]
    · intro hnone
      constructor
      · rw [wandbInitCount_skeleton, hsk, clsExpected_winit, hnone]
        rfl
      · rw [logCalls_skeleton, hsk, clsExpected_logs, hnone]
        rfl
    · intro htr
      rw [hsk]
      exact clsExpected_logOrder a _ htr

/-- Witness for C5 (amended) on the concrete autoencoder run (truthy login:
one init, one log per epoch). -/
theorem c5_witness :
    wandbInitCount aeDemoTrace
      = (if pyTruthy aeDemoArgs.wandbLogin then 1 else 0) :=
  (c5_wandb_conditional.1 Unit Unit aeDemoArgs aeDemoWorld aeDemoTrace ()
    rfl).1

/-- Claim C6: in both trainers evaluation is strictly post-training — on a
completed run, if `to_evaluate` is true the evaluation call is the very last
event of the trace and occurs nowhere else, and if `to_evaluate` is false no
evaluation event occurs at all. -/
theorem c6_evaluation_post_training :
    (∀ (P O : Type) (a : AEArgs) (w : AEWorld P O) (tr : List Event) (p : P),
      train_autoencoder a w = .ok (tr, p) →
      (a.toEvaluate = true →
        tr = tr.dropLast ++ [Event.evaluate "autoencoder"] ∧
        ∀ ev ∈ tr.dropLast, isEvalEvent ev = false) ∧
      (a.toEvaluate = false → ∀ ev ∈ tr, isEvalEvent ev = false)) ∧
    (∀ (E C O : Type) (a : ClsArgs) (w : ClsWorld E C O) (tr : List Event)
        (eF : E) (cF : C),
      train_classifier a w = .ok (tr, eF, cF) →
      (a.toEvaluate = true →
        tr = tr.dropLast ++ [Event.evaluate "classifier"] ∧
        ∀ ev ∈ tr.dropLast, isEvalEvent ev = false) ∧
      (a.toEvaluate = false → ∀ ev ∈ tr, isEvalEvent ev = false)) := by
  constructor
  · intro P O a w tr p h
    simp only [train_autoencoder] at h
    split at h
    · exact absurd h (by simp)
    · rename_i st lastF evs hloop
      injection h with h
      injection h with h1 h2
      subst h1
      have hbody : ∀ ev ∈ ([Event.manualSeed a.seed,
          Event.constructDataset "train", Event.constructDataset "test",
          Event.constructLoader a.trainBatchSize,
          Event.constructModel "AutoEncoder", Event.toDevice "autoencoder",
          Event.constructOptimizer "autoencoder.parameters" a.lr,
          Event.constructCriterion "MSELoss"]
          ++ (if pyTruthy a.wandbLogin
              then [Event.wandbInit "autoencoder" (a.wandbLogin.getD "")]
              else [])) ++ evs, isEvalEvent ev = false := by
        intro ev hev
        rcases List.mem_append.1 hev with hev | hev
        · rcases List.mem_append.1 hev with hev | hev
          · simp only [List.mem_cons, List.not_mem_nil, or_false] at hev
            rcases hev with rfl | rfl | rfl | rfl | rfl | rfl | rfl | rfl <;>
              rfl
          · revert hev
            cases pyTruthy a.wandbLogin <;> intro hev <;> simp at hev
            subst hev
            rfl
        · exact aeEpochLoop_noEval a w a.epochs 0 _ _ _ _ _ hloop ev hev
      constructor
      · intro hte
        simp only [hte, if_true]
        rw [List.append_assoc, ← List.append_assoc, List.dropLast_concat]
        exact ⟨rfl, hbody⟩
      · intro hte
        simp only [hte, Bool.false_eq_true, if_false, List.append_nil]
        exact hbody
  · intro E C O a w tr eF cF h
    simp only [train_classifier] at h
    split at h
    · exact absurd h (by simp)
    · rename_i st evs hloop
      injection h with h
      injection h with h1 h2
      subst h1
      have hbody : ∀ ev ∈ (([Event.manualSeed a.seed,
          Event.constructModel "Classifier", Event.toDevice "classifier",
          Event.toDevice "encoder",
          Event.constructDataset "train",
          Event.constructLoader a.trainBatchSize]
          ++ (if pyTruthy a.wandbLogin
              then [Event.wandbInit "autoencoder" (a.wandbLogin.getD "")]
              else [])
          ++ [Event.constructOptimizer "classifier.parameters" a.lr,
              Event.constructCriterion "CrossEntropyLoss"])) ++ evs,
          isEvalEvent ev = false := by
        intro ev hev
        rcases List.mem_append.1 hev with hev | hev
        · rcases List.mem_append.1 hev with hev | hev
          · rcases List.mem_append.1 hev with hev | hev
            · simp only [List.mem_cons, List.not_mem_nil, or_false] at hev
              rcases hev with rfl | rfl | rfl | rfl | rfl | rfl <;> rfl
            · revert hev
              cases pyTruthy a.wandbLogin <;> intro hev <;> simp at hev
              subst hev
              rfl
          · simp only [List.mem_cons, List.not_mem_nil, or_false] at hev
            rcases hev with rfl | rfl <;> rfl
        · exact clsEpochLoop_noEval a w a.epochs 0 _ _ _ hloop ev hev
      constructor
      · intro hte
        simp only [hte, if_true]
        rw [List.append_assoc, ← List.append_assoc, List.dropLast_concat]
        exact ⟨rfl, hbody⟩
      · intro hte
        simp only [hte, Bool.false_eq_true, if_false, List.append_nil]
        exact hbody

/-- Witness for C6 on the concrete autoencoder run (evaluation on: the
evaluation call is the last event). -/
theorem c6_witness :
    aeDemoTrace = aeDemoTrace.dropLast ++ [Event.evaluate "autoencoder"] ∧
    ∀ ev ∈ aeDemoTrace.dropLast, isEvalEvent ev = false :=
  ((c6_evaluation_post_training.1 Unit Unit aeDemoArgs aeDemoWorld aeDemoTrace
    () rfl).1 rfl)

/-- Claim C7: each epoch is one full pass over the training loader — on a
completed run of either trainer, for every epoch index below `epochs` the
optimizer steps of that epoch visit exactly the batch indices
`0, …, n-1` of the loader, in order, and there are no steps for any other
epoch index. -/
theorem c7_full_passes :
    (∀ (P O : Type) (a : AEArgs) (w : AEWorld P O) (tr : List Event) (p : P),
      train_autoencoder a w = .ok (tr, p) →
      ∀ e, stepsOfEpoch tr e
        = if e < a.epochs then List.range w.trainBatches.length else []) ∧
    (∀ (E C O : Type) (a : ClsArgs) (w : ClsWorld E C O) (tr : List Event)
        (eF : E) (cF : C),
      train_classifier a w = .ok (tr, eF, cF) →
      ∀ e, stepsOfEpoch tr e
        = if e < a.epochs then List.range w.trainBatches.length else []) := by
  constructor
  · intro P O a w tr p h e
    rw [stepsOfEpoch_skeleton, train_autoencoder_skeleton a w tr p h,
      aeExpected_steps]
  · intro E C O a w tr eF cF h e
    rw [stepsOfEpoch_skeleton, train_classifier_skeleton a w tr eF cF h,
      clsExpected_steps]

/-- Witness for C7 on the concrete classifier run. -/
theorem c7_witness :
    stepsOfEpoch clsDemoTrace 0
      = (if 0 < clsDemoArgs.epochs
          then List.range clsDemoWorld.trainBatches.length else []) ∧
    stepsOfEpoch clsDemoTrace 5
      = (if 5 < clsDemoArgs.epochs
          then List.range clsDemoWorld.trainBatches.length else []) :=
  ⟨c7_full_passes.2 ℚ ℚ ℚ clsDemoArgs clsDemoWorld clsDemoTrace clsDemoEnc
    clsDemoCls rfl 0,
   c7_full_passes.2 ℚ ℚ ℚ clsDemoArgs clsDemoWorld clsDemoTrace clsDemoEnc
    clsDemoCls rfl 5⟩

/-- Claim C8: the second copy of `train_classifier.py` (modelled from the
spec, which flags it as a near-identical accidental duplicate) has exactly
the same training behaviour as the one under `src/`: on every argument set
and every world the two trainers return the same result. -/
theorem c8_duplicate_equivalent :
    ∀ (E C O : Type) (a : ClsArgs) (w : ClsWorld E C O),
      train_classifier_copy a w = train_classifier a w :=
  fun _ _ _ a w => train_classifier_copy_eq a w

/-- Claim C9: in the classifier trainer the per-epoch loss that is printed
(and, with a truthy login, logged) is the sum of that epoch's per-batch losses
divided by the number of batches in the loader; the division is unguarded, so
with at least one epoch and a zero-batch loader the run raises
`ZeroDivisionError`. -/
theorem c9_epoch_mean :
    ∀ (E C O : Type) (a : ClsArgs) (w : ClsWorld E C O),
      (w.trainBatches.length ≠ 0 →
        ∀ (tr : List Event) (eF : E) (cF : C),
          train_classifier a w = .ok (tr, eF, cF) →
          printedValues tr
            = clsEpochMeans w a.epochs
                (w.initOpt, w.encoderInit, w.classifierInit) ∧
          logValues tr
            = (if pyTruthy a.wandbLogin
                then clsEpochMeans w a.epochs
                  (w.initOpt, w.encoderInit, w.classifierInit)
                else [])) ∧
      (w.trainBatches = [] → 1 ≤ a.epochs →
        train_classifier a w = .error .zeroDivisionError) :=
  fun _ _ _ a w =>
    ⟨fun hne tr eF cF h => train_classifier_printsLogs a w hne tr eF cF h,
     fun hb he => train_classifier_emptyLoader a w hb he⟩

/-- Witness for C9: the concrete classifier run prints the per-epoch means,
and the same trainer on an empty loader raises `ZeroDivisionError`. -/
theorem c9_witness :
    printedValues clsDemoTrace
      = clsEpochMeans clsDemoWorld clsDemoArgs.epochs
          (clsDemoWorld.initOpt, clsDemoWorld.encoderInit,
           clsDemoWorld.classifierInit) ∧
    train_classifier clsDemoArgs clsEmptyWorld
      = .error .zeroDivisionError :=
  ⟨((c9_epoch_mean ℚ ℚ ℚ clsDemoArgs clsDemoWorld).1 (by decide) clsDemoTrace
      clsDemoEnc clsDemoCls rfl).1,
   (c9_epoch_mean ℚ ℚ ℚ clsDemoArgs clsEmptyWorld).2 rfl (by decide)⟩

/-- Claim C10: both command-line entry points fail before any training
starts — `main()` subscripts the argparse `Namespace` (which supports no
subscription) for every argument, so both mains raise `TypeError` on every
parsed invocation; moreover the classifier `main` reads the key `"path"`,
which is not among the parser's defined argument names, while
`"autoencoder_model_path"` is. -/
theorem c10_main_fails :
    (∀ (P O : Type) (w : AEWorld P O) (ns : PyNamespace)
        (conv : List String → AEArgs),
      main_autoencoder w ns conv
        = .error (.typeError "Namespace object is not subscriptable")) ∧
    (∀ (E C O : Type) (w : ClsWorld E C O) (ns : PyNamespace)
        (loadEncoder : String → E) (conv : List String → ClsArgs),
      main_classifier w ns loadEncoder conv
        = .error (.typeError "Namespace object is not subscriptable")) ∧
    "path" ∉ clsParserArgumentNames ∧
    "autoencoder_model_path" ∈ clsParserArgumentNames :=
  ⟨fun _ _ _ _ _ => rfl, fun _ _ _ _ _ _ _ => rfl, by decide, by decide⟩
